import Mathlib

/-!
Verification development for the elbus message-bus broker
(`src/broker.rs`, `src/server.rs`).

The broker core is embedded shallowly:

* client names, topics, patterns and payloads are byte lists (`List Nat`,
  each element a byte value);
* the client registry is an association list from name to the client's
  outbound queue; a queue is `Option (List FrameData)` where `none` models
  a closed channel (`tx.send` fails) and `some q` an open queue holding the
  frames enqueued so far, oldest first;
* the two pattern matchers (the `submap` crate's `BroadcastMap` and
  `SubMap`, whose sources are not part of this repository) are modelled
  from the spec as set structures with the documented wildcard semantics;
* stateful broker functions return `BrokerDb × Except ErrorKind Unit`,
  the error meaning the per-connection read loop terminates (`?` in the
  Rust source) and the connection is torn down;
* the peer byte stream is `List (Option Nat)`: `some b` is a received
  byte, `none` is a stall of at least the configured timeout, so a read
  wrapped in `time::timeout` fails on `none` while an unbounded
  `read_exact` waits through it.
-/

deriving instance DecidableEq for Except

/-! ## Byte-list utilities -/

/-- Little-endian `u32` encoding of `n` (as the Rust `to_le_bytes` of
`n as u32`). -/
def u32le (n : Nat) : List Nat :=
  [n % 4294967296 % 256,
   n % 4294967296 / 256 % 256,
   n % 4294967296 / 65536 % 256,
   n % 4294967296 / 16777216 % 256]

/-- Little-endian `u32` value of four bytes (as `u32::from_le_bytes`). -/
def leU32 (b0 b1 b2 b3 : Nat) : Nat :=
  b0 + b1 * 256 + b2 * 65536 + b3 * 16777216

/-- Split a byte list on a separator byte, Rust `slice::split` semantics:
`n` separators yield `n + 1` (possibly empty) pieces. -/
def splitSep (sep : Nat) : List Nat → List (List Nat)
  | [] => [[]]
  | b :: rest =>
      let r := splitSep sep rest
      if b = sep then [] :: r
      else
        match r with
        | s :: ss => (b :: s) :: ss
        | [] => [[b]]

/-- The prefix of a byte list before the first NUL byte (the whole list if
none): the first item of Rust `buf.splitn(2, |c| *c == 0)`. -/
def takeToNul : List Nat → List Nat
  | [] => []
  | b :: rest => if b = 0 then [] else b :: takeToNul rest

/-- Whether the byte list contains a NUL byte: Rust
`buf.splitn(2, |c| *c == 0).nth(1).is_some()`. -/
def hasNul : List Nat → Bool
  | [] => false
  | b :: rest => b = 0 || hasNul rest

/-- Continuation byte test for UTF-8 (`0x80..=0xBF`). -/
def utf8Cont (b : Nat) : Bool := 128 ≤ b && b ≤ 191

/-- UTF-8 validity of a byte list, mirroring what
`std::str::from_utf8` accepts (RFC 3629: no overlong forms, no
surrogates, max `U+10FFFF`). -/
def utf8Valid : List Nat → Bool
  | [] => true
  | b :: rest =>
    if b ≤ 127 then utf8Valid rest
    else if b ≤ 193 then false
    else if b ≤ 223 then
      match rest with
      | c1 :: r => utf8Cont c1 && utf8Valid r
      | [] => false
    else if b = 224 then
      match rest with
      | c1 :: c2 :: r => (160 ≤ c1 && c1 ≤ 191) && utf8Cont c2 && utf8Valid r
      | _ => false
    else if b ≤ 236 then
      match rest with
      | c1 :: c2 :: r => utf8Cont c1 && utf8Cont c2 && utf8Valid r
      | _ => false
    else if b = 237 then
      match rest with
      | c1 :: c2 :: r => (128 ≤ c1 && c1 ≤ 159) && utf8Cont c2 && utf8Valid r
      | _ => false
    else if b ≤ 239 then
      match rest with
      | c1 :: c2 :: r => utf8Cont c1 && utf8Cont c2 && utf8Valid r
      | _ => false
    else if b = 240 then
      match rest with
      | c1 :: c2 :: c3 :: r =>
          (144 ≤ c1 && c1 ≤ 191) && utf8Cont c2 && utf8Cont c3 && utf8Valid r
      | _ => false
    else if b ≤ 243 then
      match rest with
      | c1 :: c2 :: c3 :: r => utf8Cont c1 && utf8Cont c2 && utf8Cont c3 && utf8Valid r
      | _ => false
    else if b = 244 then
      match rest with
      | c1 :: c2 :: c3 :: r =>
          (128 ≤ c1 && c1 ≤ 143) && utf8Cont c2 && utf8Cont c3 && utf8Valid r
      | _ => false
    else false

/-! ## Wire constants and error kinds

`lib.rs` of the repository is not under `src/`; the constants and the
`ErrorKind`, `QoS`, `FrameOp`, `FrameKind` enumerations below are
modelled from the spec (sections 4.3 and 7).  Only the distinctness of
the byte values matters to the theorems, not the exact numbers. -/

/-- Modelled from the spec: `RESPONSE_OK` status byte. -/
def RESPONSE_OK : Nat := 1

/-- Modelled from the spec: `ERR_NOT_SUPPORTED` status byte. -/
def ERR_NOT_SUPPORTED : Nat := 117

/-- Modelled from the spec: `ERR_DATA` status byte. -/
def ERR_DATA : Nat := 114

/-- Modelled from the spec: the ack opcode byte `OP_ACK`. -/
def OP_ACK : Nat := 254

/-- Modelled from the spec (§7): the error kinds the broker surfaces.
`eof` is connection closed by peer, `timeout` a deadline overrun,
`notDelivered` a send on a closed outbound channel. -/
inductive ErrorKind
  | notRegistered
  | data
  | busy
  | notSupported
  | io
  | timeout
  | eof
  | notDelivered
deriving DecidableEq, Repr

/-- Modelled from the spec (§7): `e.kind as u8`, the single status byte
of each error kind. -/
def ErrorKind.toByte : ErrorKind → Nat
  | .notRegistered => 113
  | .data => 114
  | .busy => 118
  | .notSupported => 117
  | .io => 115
  | .timeout => 119
  | .eof => 120
  | .notDelivered => 121

/-- Modelled from the spec (§4.3): QoS levels, `No = 0`, `Processed = 1`. -/
inductive QoS
  | No
  | Processed
deriving DecidableEq, Repr

/-- Modelled from the spec (§4.3): operation codes in the lower 6 bits of
the flags byte, `Nop = 0` then in listed order. -/
inductive FrameOp
  | Nop
  | Message
  | Broadcast
  | PublishTopic
  | SubscribeTopic
  | UnsubscribeTopic
deriving DecidableEq, Repr

/-- Modelled from the spec: `TryFrom` of the 6 op-code bits; an unknown
code is an `ERR_NOT_SUPPORTED` error. -/
def FrameOp.tryFrom : Nat → Except ErrorKind FrameOp
  | 0 => .ok .Nop
  | 1 => .ok .Message
  | 2 => .ok .Broadcast
  | 3 => .ok .PublishTopic
  | 4 => .ok .SubscribeTopic
  | 5 => .ok .UnsubscribeTopic
  | _ => .error .notSupported

/-- Modelled from the spec: `TryFrom` of the 2 QoS bits. -/
def QoS.tryFrom : Nat → Except ErrorKind QoS
  | 0 => .ok .No
  | 1 => .ok .Processed
  | _ => .error .notSupported

/-- Frame kinds used by the broker core (`FrameKind` in the source; the
byte values are modelled from the spec, matching the op codes for the
three routed kinds). -/
inductive FrameKind
  | Message
  | Broadcast
  | Publish
  | Prepared
deriving DecidableEq, Repr

/-- Modelled from the spec: `frame.kind as u8` for the routed-frame
header byte. -/
def FrameKind.toByte : FrameKind → Nat
  | .Message => 1
  | .Broadcast => 2
  | .Publish => 3
  | .Prepared => 16

/-- `FrameData` of the source: kind, optional sender, optional topic,
optional zero-copy extension header, raw buffer and the offset at which
the user payload starts. -/
structure FrameData where
  kind : FrameKind
  sender : Option (List Nat)
  topic : Option (List Nat)
  header : Option (List Nat)
  buf : List Nat
  payload_pos : Nat
deriving DecidableEq, Repr

/-- `frame.payload()` = `buf[payload_pos..]`. -/
def FrameData.payload (f : FrameData) : List Nat := f.buf.drop f.payload_pos

/-! ## Pattern matchers

Modelled from the spec (§4.2): the `submap` crate's `BroadcastMap` and
`SubMap` are external to this repository.  Both are pattern-indexed set
structures; a single-segment wildcard matches exactly one segment, the
multi-segment wildcard matches zero or more trailing segments and is
honoured only as the final pattern segment. -/

/-- Segment-wise pattern match: `anyTok` is the single-segment wildcard
segment, `wildTok` the trailing multi-segment wildcard segment. -/
def segsMatch (anyTok wildTok : List Nat) : List (List Nat) → List (List Nat) → Bool
  | [], [] => true
  | [], _ :: _ => false
  | [p], ts =>
      if p = wildTok then true
      else
        match ts with
        | [t] => p = anyTok || p = t
        | _ => false
  | p :: ps, t :: ts => (p = anyTok || p = t) && segsMatch anyTok wildTok ps ts
  | _ :: _, [] => false

/-- Modelled from the spec: topic-pattern match of `SubMap`
(separator `/` = 47, `+` = [43] single segment, `#` = [35] trailing). -/
def topicMatch (pat topic : List Nat) : Bool :=
  segsMatch [43] [35] (splitSep 47 pat) (splitSep 47 topic)

/-- Modelled from the spec: broadcast-name match of `BroadcastMap`
(separator `.` = 46, `?` = [63] single segment, `*` = [42] trailing). -/
def nameMatch (pat n : List Nat) : Bool :=
  segsMatch [63] [42] (splitSep 46 pat) (splitSep 46 n)

/-- Modelled from the spec: the `BroadcastMap`, holding the set of
registered client names as literal leaves. -/
structure BroadcastMapS where
  clients : List (List Nat)
deriving DecidableEq, Repr

/-- Modelled from the spec: `BroadcastMap::register_client` installs the
literal name. -/
def BroadcastMapS.registerClient (m : BroadcastMapS) (n : List Nat) : BroadcastMapS :=
  { clients := if n ∈ m.clients then m.clients else n :: m.clients }

/-- Modelled from the spec: `BroadcastMap::unregister_client`. -/
def BroadcastMapS.unregisterClient (m : BroadcastMapS) (n : List Nat) : BroadcastMapS :=
  { clients := m.clients.filter (fun x => x ≠ n) }

/-- Modelled from the spec: `get_clients_by_mask` returns every
registered name whose literal matches the pattern. -/
def BroadcastMapS.getClientsByMask (m : BroadcastMapS) (mask : List Nat) : List (List Nat) :=
  m.clients.filter (fun n => nameMatch mask n)

/-- Modelled from the spec: the `SubMap`, holding the registered client
roots and the set of (client, topic-pattern) subscriptions. -/
structure SubMapS where
  clients : List (List Nat)
  entries : List (List Nat × List Nat)
deriving DecidableEq, Repr

/-- Modelled from the spec: `SubMap::register_client` installs the client
as a subscriber root. -/
def SubMapS.registerClient (m : SubMapS) (c : List Nat) : SubMapS :=
  { m with clients := if c ∈ m.clients then m.clients else c :: m.clients }

/-- Modelled from the spec: `SubMap::unregister_client` drops the root
and every subscription of the client. -/
def SubMapS.unregisterClient (m : SubMapS) (c : List Nat) : SubMapS :=
  { clients := m.clients.filter (fun x => x ≠ c),
    entries := m.entries.filter (fun e => e.1 ≠ c) }

/-- Modelled from the spec: `SubMap::subscribe` inserts the
(client, pattern) pair idempotently and reports `true`; it reports
`false` (no change) when the client is not a registered root. -/
def SubMapS.subscribe (m : SubMapS) (topic c : List Nat) : SubMapS × Bool :=
  if c ∈ m.clients then
    ({ m with entries := if (c, topic) ∈ m.entries then m.entries
                         else (c, topic) :: m.entries }, true)
  else (m, false)

/-- Modelled from the spec: `SubMap::unsubscribe` removes the exact
(client, pattern) pair. -/
def SubMapS.unsubscribe (m : SubMapS) (topic c : List Nat) : SubMapS × Bool :=
  if c ∈ m.clients then
    ({ m with entries := m.entries.filter (fun e => e ≠ (c, topic)) }, true)
  else (m, false)

/-- Modelled from the spec: `get_subscribers` returns every registered
client one of whose subscription patterns matches the concrete topic. -/
def SubMapS.getSubscribers (m : SubMapS) (topic : List Nat) : List (List Nat) :=
  m.clients.filter (fun c => m.entries.any (fun e => e.1 = c && topicMatch e.2 topic))

/-! ## The broker database (`BrokerDb` of the source)

`clients` is the name → handle registry; the handle is reduced to its
outbound queue (`none` = channel closed, so `tx.send` fails;
`some q` = open queue).  `broadcasts` and `subscriptions` are the two
matchers. -/

/-- A client's outbound queue state. -/
abbrev Queue := Option (List FrameData)

/-- Registry lookup (`db.clients.read().unwrap().get(name)`). -/
def lookupClient : List (List Nat × Queue) → List Nat → Option Queue
  | [], _ => none
  | (n, q) :: rest, m => if n = m then some q else lookupClient rest m

/-- Replace the queue stored under a name (no-op when absent). -/
def setClient : List (List Nat × Queue) → List Nat → Queue → List (List Nat × Queue)
  | [], _, _ => []
  | (n, q) :: rest, m, q' =>
      if n = m then (n, q') :: rest else (n, q) :: setClient rest m q'

/-- `sub.tx.send(frame.clone()).await` with the result ignored
(`let _r = ...`): append to the queue when the name is present with an
open channel, otherwise leave everything unchanged. -/
def enqueueIgnore (cs : List (List Nat × Queue)) (n : List Nat) (f : FrameData) :
    List (List Nat × Queue) :=
  match lookupClient cs n with
  | some (some q) => setClient cs n (some (q ++ [f]))
  | _ => cs

/-- Fan-out: enqueue the shared frame to each listed recipient in turn,
each send's failure ignored. -/
def deliverAll (cs : List (List Nat × Queue)) (f : FrameData) :
    List (List Nat) → List (List Nat × Queue)
  | [] => cs
  | n :: ns => deliverAll (enqueueIgnore cs n f) f ns

/-- `BrokerDb` of the source: registry plus the two matchers. -/
structure BrokerDb where
  clients : List (List Nat × Queue)
  broadcasts : BroadcastMapS
  subscriptions : SubMapS
deriving DecidableEq, Repr

/-- The empty broker database (`BrokerDb::default`). -/
def BrokerDb.initial : BrokerDb := ⟨[], ⟨[]⟩, ⟨[], []⟩⟩

/-- The auto-subscribed topic `.broker/warn` (`BROKER_WARN_TOPIC`). -/
def warnTopic : List Nat := [46, 98, 114, 111, 107, 101, 114, 47, 119, 97, 114, 110]

/-- `BrokerDb::register_client`: fail with `busy` when the name is
occupied, otherwise install the client in the broadcast matcher, the
subscription matcher (with the `.broker/warn` auto-subscription) and the
registry, with a fresh open queue. -/
def BrokerDb.registerClient (db : BrokerDb) (n : List Nat) :
    BrokerDb × Except ErrorKind Unit :=
  match lookupClient db.clients n with
  | some _ => (db, .error .busy)
  | none =>
      let b := db.broadcasts.registerClient n
      let s0 := db.subscriptions.registerClient n
      let s1 := (s0.subscribe warnTopic n).1
      ({ clients := (n, some []) :: db.clients, broadcasts := b, subscriptions := s1 },
       .ok ())

/-- `BrokerDb::unregister_client`: remove from the subscription matcher,
the broadcast matcher and the registry. -/
def BrokerDb.unregisterClient (db : BrokerDb) (n : List Nat) : BrokerDb :=
  { clients := db.clients.filter (fun e => e.1 ≠ n),
    broadcasts := db.broadcasts.unregisterClient n,
    subscriptions := db.subscriptions.unregisterClient n }

/-! ## Dispatch primitives (`send!`, `send_broadcast!`, `publish!`) -/

/-- The `send!` macro: resolve the target in the registry; absent →
`not_registered`; present with a closed channel → the send error;
otherwise enqueue a `Message` frame on the target's outbound. -/
def sendMsg (db : BrokerDb) (c target : List Nat) (hdr : Option (List Nat))
    (buf : List Nat) (pos : Nat) : BrokerDb × Except ErrorKind Unit :=
  match lookupClient db.clients target with
  | none => (db, .error .notRegistered)
  | some none => (db, .error .notDelivered)
  | some (some q) =>
      let frame : FrameData := ⟨.Message, some c, none, hdr, buf, pos⟩
      let cs := setClient db.clients target (some (q ++ [frame]))
      ({ db with clients := cs }, .ok ())

/-- The `send_broadcast!` macro: resolve the mask in the broadcast
matcher; when the match is non-empty build one shared `Broadcast` frame
and enqueue it to every matched recipient, each failure ignored.  Total:
it never errors. -/
def sendBroadcastM (db : BrokerDb) (c target : List Nat) (hdr : Option (List Nat))
    (buf : List Nat) (pos : Nat) : BrokerDb :=
  let subs := db.broadcasts.getClientsByMask target
  if subs = [] then db
  else
    let frame : FrameData := ⟨.Broadcast, some c, none, hdr, buf, pos⟩
    { db with clients := deliverAll db.clients frame subs }

/-- The `publish!` macro: resolve subscribers in the subscription
matcher; when non-empty build one shared `Publish` frame (carrying the
topic) and enqueue it to every subscriber, each failure ignored. -/
def publishM (db : BrokerDb) (c topic : List Nat) (hdr : Option (List Nat))
    (buf : List Nat) (pos : Nat) : BrokerDb :=
  let subs := db.subscriptions.getSubscribers topic
  if subs = [] then db
  else
    let frame : FrameData := ⟨.Publish, some c, some topic, hdr, buf, pos⟩
    { db with clients := deliverAll db.clients frame subs }

/-! ## Acknowledgements and the reader's dispatch (`handle_reader`) -/

/-- The `Prepared` ack frame: `OP_ACK` byte, the echoed 4-byte op id, one
status byte. -/
def ackFrame (opId : List Nat) (code : Nat) : FrameData :=
  ⟨.Prepared, none, none, none, OP_ACK :: opId ++ [code], 0⟩

/-- The `send_ack!` macro: enqueue the prepared ack on the originating
client's own channel; a failure there propagates (`?`) and ends the read
loop. -/
def sendAck (db : BrokerDb) (c : List Nat) (opId : List Nat) (code : Nat) :
    BrokerDb × Except ErrorKind Unit :=
  match lookupClient db.clients c with
  | some (some q) =>
      let cs := setClient db.clients c (some (q ++ [ackFrame opId code]))
      ({ db with clients := cs }, .ok ())
  | _ => (db, .error .notDelivered)

/-- The `SubscribeTopic` body loop: apply each `\0`-separated segment in
order; an invalid-UTF-8 segment aborts after the prior segments were
already applied (the `?` inside the loop), reported as `false`. -/
def subscribeSegs (m : SubMapS) (c : List Nat) : List (List Nat) → SubMapS × Bool
  | [] => (m, true)
  | t :: ts =>
      if utf8Valid t then subscribeSegs (m.subscribe t c).1 c ts else (m, false)

/-- The `UnsubscribeTopic` body loop, same shape as `subscribeSegs`. -/
def unsubscribeSegs (m : SubMapS) (c : List Nat) : List (List Nat) → SubMapS × Bool
  | [] => (m, true)
  | t :: ts =>
      if utf8Valid t then unsubscribeSegs (m.unsubscribe t c).1 c ts else (m, false)

/-- The body-dispatch of `handle_reader` for one parsed operation:
subscribe/unsubscribe apply the batch; the routed ops split the body at
the first NUL into target and payload (`payload_pos = target.len() + 1`),
with an invalid-UTF-8 target or a missing NUL separator erroring out of
the read loop.  A dispatch error of `Message` becomes an error ack under
QoS `Processed` and is silently dropped under QoS `No`; `Broadcast` and
`PublishTopic` never fail and ack `RESPONSE_OK` under `Processed`. -/
def dispatchOp (db : BrokerDb) (c : List Nat) (opId : List Nat) (op : FrameOp)
    (qos : QoS) (body : List Nat) : BrokerDb × Except ErrorKind Unit :=
  match op with
  | .SubscribeTopic =>
      let r := subscribeSegs db.subscriptions c (splitSep 0 body)
      let db' := { db with subscriptions := r.1 }
      if r.2 then
        if qos = .Processed then sendAck db' c opId RESPONSE_OK else (db', .ok ())
      else (db', .error .data)
  | .UnsubscribeTopic =>
      let r := unsubscribeSegs db.subscriptions c (splitSep 0 body)
      let db' := { db with subscriptions := r.1 }
      if r.2 then
        if qos = .Processed then sendAck db' c opId RESPONSE_OK else (db', .ok ())
      else (db', .error .data)
  | _ =>
      let tgt := takeToNul body
      if utf8Valid tgt then
        if hasNul body then
          let pos := tgt.length + 1
          match op with
          | .Message =>
              let r := sendMsg db c tgt none body pos
              match r.2 with
              | .error e =>
                  if qos = .Processed then sendAck r.1 c opId e.toByte
                  else (r.1, .ok ())
              | .ok _ =>
                  if qos = .Processed then sendAck r.1 c opId RESPONSE_OK
                  else (r.1, .ok ())
          | .Broadcast =>
              let db' := sendBroadcastM db c tgt none body pos
              if qos = .Processed then sendAck db' c opId RESPONSE_OK
              else (db', .ok ())
          | .PublishTopic =>
              let db' := publishM db c tgt none body pos
              if qos = .Processed then sendAck db' c opId RESPONSE_OK
              else (db', .ok ())
          | _ => (db, .ok ())
        else (db, .error .data)
      else (db, .error .data)

/-! ## Operation-header parsing and the read loop -/

/-- Result of examining a 9-byte operation header. -/
inductive HeaderParse
  | ping
  | op (op : FrameOp) (qos : QoS) (len : Nat)
  | bad (e : ErrorKind)
deriving DecidableEq, Repr

/-- Header handling of `handle_reader`: `flags = buf[4]`; a zero flags
byte is a ping (`OP_NOP`, no body); otherwise the lower 6 bits are the
op, the upper 2 the QoS, and bytes 5..9 the little-endian body length. -/
def parseHeader (hdr : List Nat) : HeaderParse :=
  let flags := hdr.getD 4 0
  if flags = 0 then .ping
  else
    match FrameOp.tryFrom (flags % 64), QoS.tryFrom (flags / 64 % 64) with
    | .ok o, .ok q =>
        .op o q (leU32 (hdr.getD 5 0) (hdr.getD 6 0) (hdr.getD 7 0) (hdr.getD 8 0))
    | .error e, _ => .bad e
    | _, .error e => .bad e

/-- The peer byte stream: `some b` is a received byte, `none` a stall of
at least the configured timeout. -/
abbrev ByteStream := List (Option Nat)

/-- `time::timeout(timeout, reader.read_exact(..))`: a bounded read of
`n` bytes.  A stall fires the timeout; stream end is EOF. -/
def readBounded : Nat → ByteStream → Except ErrorKind (List Nat × ByteStream)
  | 0, s => .ok ([], s)
  | _ + 1, [] => .error .eof
  | _ + 1, none :: _ => .error .timeout
  | n + 1, some b :: s =>
      match readBounded n s with
      | .ok (bs, s') => .ok (b :: bs, s')
      | .error e => .error e

/-- Recursion core of `readUnbounded`, structural on the stream. -/
def readUnboundedAux : ByteStream → Nat → Except ErrorKind (List Nat × ByteStream)
  | s, 0 => .ok ([], s)
  | [], _ + 1 => .error .eof
  | none :: s, n + 1 => readUnboundedAux s (n + 1)
  | some b :: s, n + 1 =>
      match readUnboundedAux s n with
      | .ok (bs, s') => .ok (b :: bs, s')
      | .error e => .error e

/-- A plain `reader.read_exact(..)` with no timeout wrapper: an unbounded
read waits through stalls; only stream end is an error. -/
def readUnbounded (n : Nat) (s : ByteStream) : Except ErrorKind (List Nat × ByteStream) :=
  readUnboundedAux s n

/-- Outcome of one read-loop iteration: continue with the rest of the
stream, or halt (the connection is torn down). -/
inductive StepRes
  | cont (db : BrokerDb) (s : ByteStream)
  | halt (db : BrokerDb) (e : ErrorKind)
deriving DecidableEq, Repr

/-- One iteration of the Running-state read loop (`handle_reader`): read
the 9-byte op header with NO timeout, examine it; a ping reads no body
and continues; otherwise read the body under the timeout and dispatch. -/
def readStep (db : BrokerDb) (c : List Nat) (s : ByteStream) : StepRes :=
  match readUnbounded 9 s with
  | .error e => .halt db e
  | .ok (hdr, s1) =>
      match parseHeader hdr with
      | .ping => .cont db s1
      | .bad e => .halt db e
      | .op o q len =>
          match readBounded len s1 with
          | .error e => .halt db e
          | .ok (body, s2) =>
              let r := dispatchOp db c (hdr.take 4) o q body
              match r.2 with
              | .ok _ => .cont r.1 s2
              | .error e => .halt r.1 e

/-- The read loop, fuel-bounded (the Rust loop runs until an error; fuel
exhaustion returns the state reached so far). -/
def readLoop : Nat → BrokerDb → List Nat → ByteStream → BrokerDb × Except ErrorKind Unit
  | 0, db, _, _ => (db, .ok ())
  | fuel + 1, db, c, s =>
      match readStep db c s with
      | .halt db' e => (db', .error e)
      | .cont db' s' => readLoop fuel db' c s'

/-- The tail of `handle_peer` after `handle_reader` returns: the writer
task is aborted and the client is unregistered from all three indexes,
whatever the reader's result was. -/
def peerAfterReader (db : BrokerDb) (c : List Nat) (fuel : Nat) (s : ByteStream) :
    BrokerDb × Except ErrorKind Unit :=
  let r := readLoop fuel db c s
  (r.1.unregisterClient c, r.2)

/-! ## Name handshake (`handle_peer`, after the greeting exchange) -/

/-- The name phase of `handle_peer` once the name bytes are read: the
returned triple is (database after the phase, bytes written to the
socket, result — an error closes the connection).  Invalid UTF-8
propagates through `?` before any validation; an empty name or one whose
first byte is `.` (46) gets a single `ERR_DATA` byte; a registration
failure gets the error kind byte; success gets `RESPONSE_OK`. -/
def handleName (db : BrokerDb) (nameBytes : List Nat) :
    BrokerDb × List Nat × Except ErrorKind Unit :=
  if utf8Valid nameBytes then
    if nameBytes = [] ∨ nameBytes.getD 0 0 = 46 then (db, [ERR_DATA], .error .data)
    else
      let r := db.registerClient nameBytes
      match r.2 with
      | .error e => (r.1, [e.toByte], .error e)
      | .ok _ => (r.1, [RESPONSE_OK], .ok ())
  else (db, [], .error .data)

/-! ## In-process client (`impl AsyncClient for Client`) -/

/-- The already-resolved confirmation channel of an in-process call: for
QoS `Processed` the `make_confirm_channel!` macro creates a oneshot
channel and sends `Ok(())` into it before returning the receiver, so the
receiver is modelled by the value it already holds. -/
abbrev OpConfirm := Option (Except ErrorKind Unit)

/-- The `make_confirm_channel!` macro. -/
def makeConfirmChannel (qos : QoS) : Except ErrorKind OpConfirm :=
  match qos with
  | .No => .ok none
  | .Processed => .ok (some (.ok ()))

/-- `Client::subscribe`: a `SubMap::subscribe` returning `false` is
`not_registered`; otherwise the confirmation channel is produced. -/
def clientSubscribe (db : BrokerDb) (c topic : List Nat) (qos : QoS) :
    BrokerDb × Except ErrorKind OpConfirm :=
  let r := db.subscriptions.subscribe topic c
  let db' := { db with subscriptions := r.1 }
  if r.2 then (db', makeConfirmChannel qos) else (db', .error .notRegistered)

/-- `Client::unsubscribe`. -/
def clientUnsubscribe (db : BrokerDb) (c topic : List Nat) (qos : QoS) :
    BrokerDb × Except ErrorKind OpConfirm :=
  let r := db.subscriptions.unsubscribe topic c
  let db' := { db with subscriptions := r.1 }
  if r.2 then (db', makeConfirmChannel qos) else (db', .error .notRegistered)

/-- `Client::send`: the `send!` macro with `payload_pos = 0`, then the
confirmation channel. -/
def clientSend (db : BrokerDb) (c target payload : List Nat) (qos : QoS) :
    BrokerDb × Except ErrorKind OpConfirm :=
  let r := sendMsg db c target none payload 0
  match r.2 with
  | .error e => (r.1, .error e)
  | .ok _ => (r.1, makeConfirmChannel qos)

/-- `Client::send_broadcast`: `send_broadcast!` (which never errors),
then the confirmation channel. -/
def clientSendBroadcast (db : BrokerDb) (c target payload : List Nat) (qos : QoS) :
    BrokerDb × Except ErrorKind OpConfirm :=
  (sendBroadcastM db c target none payload 0, makeConfirmChannel qos)

/-- `Client::publish`: `publish!` (which never errors), then the
confirmation channel. -/
def clientPublish (db : BrokerDb) (c topic payload : List Nat) (qos : QoS) :
    BrokerDb × Except ErrorKind OpConfirm :=
  (publishM db c topic none payload 0, makeConfirmChannel qos)

/-! ## Routed-frame encoding (the write loop of `handle_peer`) -/

/-- The writer task's encoding of a non-`Prepared` frame: kind byte,
little-endian `u32` frame length (`extra_len + buf.len() - payload_pos
+ 1`, truncated to 32 bits), the `0x00` reserved byte, sender bytes, a
NUL, for a topic-carrying frame the topic bytes and a NUL, then the
extension header bytes (when present) and the payload bytes. -/
def encodeRouted (f : FrameData) : List Nat :=
  let sender := f.sender.getD []
  let extra1 := match f.topic with | some t => t.length + 1 | none => 0
  let extra2 := match f.header with | some h => h.length | none => 0
  let extraLen := sender.length + extra1 + extra2
  let frameLen := extraLen + f.buf.length - f.payload_pos + 1
  [f.kind.toByte] ++ u32le frameLen ++ [0] ++ sender ++ [0]
    ++ (match f.topic with | some t => t ++ [0] | none => [])
    ++ (match f.header with | some h => h | none => [])
    ++ f.payload

/-- Modelled from the spec (§4.3, routed frame): the receiving side's
decoding of a routed frame.  Splits off the kind byte, the 4 length
bytes, the reserved byte, the NUL-terminated sender, for `Publish` the
NUL-terminated topic; everything after is opaque data (extension header
and payload are not delimited on the wire). -/
def decodeRouted (bs : List Nat) :
    Option (FrameKind × List Nat × Option (List Nat) × List Nat) :=
  match bs with
  | k :: _ :: _ :: _ :: _ :: 0 :: rest =>
      let kind := if k = 1 then some FrameKind.Message
                  else if k = 2 then some FrameKind.Broadcast
                  else if k = 3 then some FrameKind.Publish
                  else none
      match kind with
      | none => none
      | some kd =>
          if hasNul rest then
            let sender := takeToNul rest
            let rest1 := rest.drop (sender.length + 1)
            if kd = FrameKind.Publish then
              if hasNul rest1 then
                let topic := takeToNul rest1
                let data := rest1.drop (topic.length + 1)
                some (kd, sender, some topic, data)
              else none
            else some (kd, sender, none, rest1)
          else none
  | _ => none

/-- The `u32` length field of an encoded routed frame. -/
def lengthField (bs : List Nat) : Nat :=
  leU32 (bs.getD 1 0) (bs.getD 2 0) (bs.getD 3 0) (bs.getD 4 0)

/-! ## Reachable broker states

The broker database evolves through registration (in-process
`Broker::register_client` or the wire handshake), unregistration
(connection teardown or in-process `Client::drop`), the wire read loop's
dispatch, and the in-process client operations. -/

/-- States reachable from the empty broker by the broker operations. -/
inductive Reach : BrokerDb → Prop
  | init : Reach BrokerDb.initial
  | register (db : BrokerDb) (n : List Nat) :
      Reach db → Reach (db.registerClient n).1
  | unregister (db : BrokerDb) (n : List Nat) :
      Reach db → Reach (db.unregisterClient n)
  | dispatch (db : BrokerDb) (c opId : List Nat) (op : FrameOp) (qos : QoS)
      (body : List Nat) :
      Reach db → Reach (dispatchOp db c opId op qos body).1
  | csub (db : BrokerDb) (c t : List Nat) (qos : QoS) :
      Reach db → Reach (clientSubscribe db c t qos).1
  | cunsub (db : BrokerDb) (c t : List Nat) (qos : QoS) :
      Reach db → Reach (clientUnsubscribe db c t qos).1
  | csend (db : BrokerDb) (c tgt p : List Nat) (qos : QoS) :
      Reach db → Reach (clientSend db c tgt p qos).1
  | cbcast (db : BrokerDb) (c tgt p : List Nat) (qos : QoS) :
      Reach db → Reach (clientSendBroadcast db c tgt p qos).1
  | cpub (db : BrokerDb) (c t p : List Nat) (qos : QoS) :
      Reach db → Reach (clientPublish db c t p qos).1

/-- States reachable when no client ever unsubscribes from
`.broker/warn`: as `Reach`, but wire `UnsubscribeTopic` bodies never
contain the warn topic as a segment and in-process unsubscribes never
name it. -/
inductive ReachKeepWarn : BrokerDb → Prop
  | init : ReachKeepWarn BrokerDb.initial
  | register (db : BrokerDb) (n : List Nat) :
      ReachKeepWarn db → ReachKeepWarn (db.registerClient n).1
  | unregister (db : BrokerDb) (n : List Nat) :
      ReachKeepWarn db → ReachKeepWarn (db.unregisterClient n)
  | dispatch (db : BrokerDb) (c opId : List Nat) (op : FrameOp) (qos : QoS)
      (body : List Nat) :
      ReachKeepWarn db →
      (op = FrameOp.UnsubscribeTopic → warnTopic ∉ splitSep 0 body) →
      ReachKeepWarn (dispatchOp db c opId op qos body).1
  | csub (db : BrokerDb) (c t : List Nat) (qos : QoS) :
      ReachKeepWarn db → ReachKeepWarn (clientSubscribe db c t qos).1
  | cunsub (db : BrokerDb) (c t : List Nat) (qos : QoS) :
      ReachKeepWarn db → t ≠ warnTopic →
      ReachKeepWarn (clientUnsubscribe db c t qos).1
  | csend (db : BrokerDb) (c tgt p : List Nat) (qos : QoS) :
      ReachKeepWarn db → ReachKeepWarn (clientSend db c tgt p qos).1
  | cbcast (db : BrokerDb) (c tgt p : List Nat) (qos : QoS) :
      ReachKeepWarn db → ReachKeepWarn (clientSendBroadcast db c tgt p qos).1
  | cpub (db : BrokerDb) (c t p : List Nat) (qos : QoS) :
      ReachKeepWarn db → ReachKeepWarn (clientPublish db c t p qos).1

/-! ## Helper lemmas: byte lists -/

theorem takeToNul_append_nul (t p : List Nat) (h : hasNul t = false) :
    takeToNul (t ++ 0 :: p) = t := by
  induction t with
  | nil => simp [takeToNul]
  | cons b rest ih =>
      simp only [hasNul, Bool.or_eq_false_iff, decide_eq_false_iff_not] at h
      simp [takeToNul, h.1, ih h.2]

theorem hasNul_append_nul (t p : List Nat) : hasNul (t ++ 0 :: p) = true := by
  induction t with
  | nil => simp [hasNul]
  | cons b rest ih => simp [hasNul, ih]

theorem drop_after_nul (s x : List Nat) : (s ++ 0 :: x).drop (s.length + 1) = x := by
  induction s with
  | nil => simp
  | cons b rest ih => simp [ih]

/-! ## Helper lemmas: registry association list -/

theorem lookupClient_setClient_self (cs : List (List Nat × Queue)) (n : List Nat)
    (q : Queue) (h : lookupClient cs n ≠ none) :
    lookupClient (setClient cs n q) n = some q := by
  induction cs with
  | nil => simp [lookupClient] at h
  | cons e rest ih =>
      obtain ⟨m, qm⟩ := e
      by_cases hm : m = n
      · subst hm; simp [lookupClient, setClient]
      · simp only [lookupClient, setClient, if_neg hm] at h ⊢
        exact ih h

theorem lookupClient_setClient_ne (cs : List (List Nat × Queue)) (n m : List Nat)
    (q : Queue) (h : m ≠ n) :
    lookupClient (setClient cs n q) m = lookupClient cs m := by
  induction cs with
  | nil => simp [setClient]
  | cons e rest ih =>
      obtain ⟨k, qk⟩ := e
      by_cases hk : k = n
      · subst hk
        have : k ≠ m := fun hkm => h (hkm ▸ rfl)
        simp [lookupClient, setClient, this]
      · by_cases hkm : k = m
        · subst hkm; simp [lookupClient, setClient, hk]
        · simp [lookupClient, setClient, hk, hkm, ih]

theorem setClient_map_fst (cs : List (List Nat × Queue)) (n : List Nat) (q : Queue) :
    (setClient cs n q).map Prod.fst = cs.map Prod.fst := by
  induction cs with
  | nil => simp [setClient]
  | cons e rest ih =>
      obtain ⟨k, qk⟩ := e
      by_cases hk : k = n
      · simp [setClient, hk]
      · simp [setClient, hk, ih]

theorem enqueueIgnore_lookup_ne (cs : List (List Nat × Queue)) (n m : List Nat)
    (f : FrameData) (h : m ≠ n) :
    lookupClient (enqueueIgnore cs n f) m = lookupClient cs m := by
  unfold enqueueIgnore
  match hl : lookupClient cs n with
  | none => rfl
  | some none => rfl
  | some (some q) => exact lookupClient_setClient_ne cs n m _ h

theorem enqueueIgnore_lookup_open (cs : List (List Nat × Queue)) (n : List Nat)
    (f : FrameData) (q : List FrameData) (h : lookupClient cs n = some (some q)) :
    lookupClient (enqueueIgnore cs n f) n = some (some (q ++ [f])) := by
  unfold enqueueIgnore
  rw [h]
  exact lookupClient_setClient_self cs n _ (by rw [h]; exact fun hc => by cases hc)

theorem enqueueIgnore_lookup_closed (cs : List (List Nat × Queue)) (n : List Nat)
    (f : FrameData) (h : lookupClient cs n = some none) :
    enqueueIgnore cs n f = cs := by
  unfold enqueueIgnore
  rw [h]

theorem enqueueIgnore_map_fst (cs : List (List Nat × Queue)) (n : List Nat)
    (f : FrameData) :
    (enqueueIgnore cs n f).map Prod.fst = cs.map Prod.fst := by
  unfold enqueueIgnore
  match hl : lookupClient cs n with
  | none => rfl
  | some none => rfl
  | some (some q) => exact setClient_map_fst cs n _

theorem deliverAll_lookup_notmem (cs : List (List Nat × Queue)) (f : FrameData)
    (ns : List (List Nat)) (m : List Nat) (h : m ∉ ns) :
    lookupClient (deliverAll cs f ns) m = lookupClient cs m := by
  induction ns generalizing cs with
  | nil => rfl
  | cons n rest ih =>
      simp only [List.mem_cons, not_or] at h
      rw [deliverAll, ih _ h.2, enqueueIgnore_lookup_ne cs n m f h.1]

theorem deliverAll_lookup_open (cs : List (List Nat × Queue)) (f : FrameData)
    (ns : List (List Nat)) (m : List Nat) (q : List FrameData)
    (hnd : ns.Nodup) (hm : m ∈ ns) (h : lookupClient cs m = some (some q)) :
    lookupClient (deliverAll cs f ns) m = some (some (q ++ [f])) := by
  induction ns generalizing cs with
  | nil => cases hm
  | cons n rest ih =>
      rw [deliverAll]
      rcases List.mem_cons.mp hm with hmn | hmr
      · subst hmn
        have hnotr : m ∉ rest := (List.nodup_cons.mp hnd).1
        rw [deliverAll_lookup_notmem _ _ _ _ hnotr]
        exact enqueueIgnore_lookup_open cs m f q h
      · have hnd' : rest.Nodup := (List.nodup_cons.mp hnd).2
        by_cases hmn : m = n
        · subst hmn; exact absurd hmr (List.nodup_cons.mp hnd).1
        · exact ih _ hnd' hmr (by rw [enqueueIgnore_lookup_ne cs n m f hmn]; exact h)

theorem deliverAll_lookup_closed (cs : List (List Nat × Queue)) (f : FrameData)
    (ns : List (List Nat)) (m : List Nat) (h : lookupClient cs m = some none) :
    lookupClient (deliverAll cs f ns) m = some none := by
  induction ns generalizing cs with
  | nil => exact h
  | cons n rest ih =>
      rw [deliverAll]
      by_cases hmn : m = n
      · subst hmn
        exact ih _ (by rw [enqueueIgnore_lookup_closed cs m f h]; exact h)
      · exact ih _ (by rw [enqueueIgnore_lookup_ne cs n m f hmn]; exact h)

theorem deliverAll_map_fst (cs : List (List Nat × Queue)) (f : FrameData)
    (ns : List (List Nat)) :
    (deliverAll cs f ns).map Prod.fst = cs.map Prod.fst := by
  induction ns generalizing cs with
  | nil => rfl
  | cons n rest ih => rw [deliverAll, ih, enqueueIgnore_map_fst]

theorem lookupClient_filter_self (cs : List (List Nat × Queue)) (n : List Nat) :
    lookupClient (cs.filter (fun e => e.1 ≠ n)) n = none := by
  induction cs with
  | nil => rfl
  | cons e rest ih =>
      obtain ⟨k, qk⟩ := e
      by_cases hk : k = n
      · simpa [List.filter, hk] using ih
      · simpa [List.filter, hk, lookupClient] using ih

/-! ## Helper lemmas: matchers -/

theorem BroadcastMapS.registerClient_mem_bcast (m : BroadcastMapS) (n : List Nat) :
    n ∈ (m.registerClient n).clients := by
  unfold registerClient
  by_cases h : n ∈ m.clients <;> simp [h]

theorem SubMapS.registerClient_mem_sub (m : SubMapS) (c : List Nat) :
    c ∈ (m.registerClient c).clients := by
  unfold registerClient
  by_cases h : c ∈ m.clients <;> simp [h]

theorem SubMapS.registerClient_clients_sup (m : SubMapS) (c x : List Nat)
    (h : x ∈ m.clients) : x ∈ (m.registerClient c).clients := by
  unfold registerClient
  by_cases hc : c ∈ m.clients <;> simp [hc, h]

theorem SubMapS.registerClient_entries (m : SubMapS) (c : List Nat) :
    (m.registerClient c).entries = m.entries := by
  unfold registerClient
  by_cases hc : c ∈ m.clients <;> simp [hc]

theorem SubMapS.subscribe_clients (m : SubMapS) (t c : List Nat) :
    ((m.subscribe t c).1).clients = m.clients := by
  unfold subscribe
  by_cases hc : c ∈ m.clients <;> simp [hc]

theorem SubMapS.subscribe_entries_sup (m : SubMapS) (t c : List Nat)
    (e : List Nat × List Nat) (h : e ∈ m.entries) :
    e ∈ ((m.subscribe t c).1).entries := by
  unfold subscribe
  by_cases hc : c ∈ m.clients
  · by_cases he : (c, t) ∈ m.entries <;> simp [hc, he, h]
  · simp [hc, h]

theorem SubMapS.subscribe_self_mem (m : SubMapS) (t c : List Nat)
    (h : c ∈ m.clients) : (c, t) ∈ ((m.subscribe t c).1).entries := by
  unfold subscribe
  by_cases he : (c, t) ∈ m.entries <;> simp [h, he]

theorem SubMapS.unsubscribe_clients (m : SubMapS) (t c : List Nat) :
    ((m.unsubscribe t c).1).clients = m.clients := by
  unfold unsubscribe
  by_cases hc : c ∈ m.clients <;> simp [hc]

theorem SubMapS.unsubscribe_entries_keep (m : SubMapS) (t c : List Nat)
    (e : List Nat × List Nat) (h : e ∈ m.entries) (hne : e ≠ (c, t)) :
    e ∈ ((m.unsubscribe t c).1).entries := by
  unfold unsubscribe
  by_cases hc : c ∈ m.clients
  · simp only [hc, if_true]
    exact List.mem_filter.mpr ⟨h, by simpa using hne⟩
  · simp [hc, h]

theorem subscribeSegs_clients (m : SubMapS) (c : List Nat) (ts : List (List Nat)) :
    ((subscribeSegs m c ts).1).clients = m.clients := by
  induction ts generalizing m with
  | nil => rfl
  | cons t rest ih =>
      rw [subscribeSegs]
      by_cases hu : utf8Valid t
      · rw [if_pos hu, ih, SubMapS.subscribe_clients]
      · rw [if_neg hu]

theorem subscribeSegs_entries_sup (m : SubMapS) (c : List Nat) (ts : List (List Nat))
    (e : List Nat × List Nat) (h : e ∈ m.entries) :
    e ∈ ((subscribeSegs m c ts).1).entries := by
  induction ts generalizing m with
  | nil => exact h
  | cons t rest ih =>
      rw [subscribeSegs]
      by_cases hu : utf8Valid t
      · rw [if_pos hu]
        exact ih _ (SubMapS.subscribe_entries_sup m t c e h)
      · rw [if_neg hu]; exact h

theorem unsubscribeSegs_clients (m : SubMapS) (c : List Nat) (ts : List (List Nat)) :
    ((unsubscribeSegs m c ts).1).clients = m.clients := by
  induction ts generalizing m with
  | nil => rfl
  | cons t rest ih =>
      rw [unsubscribeSegs]
      by_cases hu : utf8Valid t
      · rw [if_pos hu, ih, SubMapS.unsubscribe_clients]
      · rw [if_neg hu]

theorem unsubscribeSegs_entries_keep (m : SubMapS) (c : List Nat)
    (ts : List (List Nat)) (e : List Nat × List Nat)
    (h : e ∈ m.entries) (hne : e.2 ∉ ts) :
    e ∈ ((unsubscribeSegs m c ts).1).entries := by
  induction ts generalizing m with
  | nil => exact h
  | cons t rest ih =>
      simp only [List.mem_cons, not_or] at hne
      rw [unsubscribeSegs]
      by_cases hu : utf8Valid t
      · rw [if_pos hu]
        refine ih _ (SubMapS.unsubscribe_entries_keep m t c e h ?_) hne.2
        intro hcontra
        exact hne.1 (by rw [hcontra])
      · rw [if_neg hu]; exact h

theorem SubMapS.mem_getSubscribers (m : SubMapS) (topic c : List Nat)
    (hc : c ∈ m.clients) (e : List Nat × List Nat) (he : e ∈ m.entries)
    (hfst : e.1 = c) (hmatch : topicMatch e.2 topic = true) :
    c ∈ m.getSubscribers topic := by
  unfold getSubscribers
  refine List.mem_filter.mpr ⟨hc, ?_⟩
  refine List.any_eq_true.mpr ⟨e, he, ?_⟩
  simp [hfst, hmatch]

/-! ## Helper lemmas: dispatch primitives -/

theorem sendMsg_subscriptions (db : BrokerDb) (c t : List Nat) (h : Option (List Nat))
    (b : List Nat) (p : Nat) :
    (sendMsg db c t h b p).1.subscriptions = db.subscriptions := by
  unfold sendMsg; split <;> rfl

theorem sendMsg_map_fst (db : BrokerDb) (c t : List Nat) (h : Option (List Nat))
    (b : List Nat) (p : Nat) :
    (sendMsg db c t h b p).1.clients.map Prod.fst = db.clients.map Prod.fst := by
  unfold sendMsg; split <;> simp [setClient_map_fst]

theorem sendBroadcastM_subscriptions (db : BrokerDb) (c t : List Nat)
    (h : Option (List Nat)) (b : List Nat) (p : Nat) :
    (sendBroadcastM db c t h b p).subscriptions = db.subscriptions := by
  simp only [sendBroadcastM]; split <;> rfl

theorem sendBroadcastM_map_fst (db : BrokerDb) (c t : List Nat)
    (h : Option (List Nat)) (b : List Nat) (p : Nat) :
    (sendBroadcastM db c t h b p).clients.map Prod.fst = db.clients.map Prod.fst := by
  simp only [sendBroadcastM]; split
  · rfl
  · simp [deliverAll_map_fst]

theorem publishM_subscriptions (db : BrokerDb) (c t : List Nat)
    (h : Option (List Nat)) (b : List Nat) (p : Nat) :
    (publishM db c t h b p).subscriptions = db.subscriptions := by
  simp only [publishM]; split <;> rfl

theorem publishM_map_fst (db : BrokerDb) (c t : List Nat)
    (h : Option (List Nat)) (b : List Nat) (p : Nat) :
    (publishM db c t h b p).clients.map Prod.fst = db.clients.map Prod.fst := by
  simp only [publishM]; split
  · rfl
  · simp [deliverAll_map_fst]

theorem sendAck_subscriptions (db : BrokerDb) (c opId : List Nat) (code : Nat) :
    (sendAck db c opId code).1.subscriptions = db.subscriptions := by
  unfold sendAck; split <;> rfl

theorem sendAck_map_fst (db : BrokerDb) (c opId : List Nat) (code : Nat) :
    (sendAck db c opId code).1.clients.map Prod.fst = db.clients.map Prod.fst := by
  unfold sendAck; split <;> simp [setClient_map_fst]

/-- Unfolding of `dispatchOp` on a well-formed `Message` body. -/
theorem dispatchMessage_eq (db : BrokerDb) (c opId : List Nat) (qos : QoS)
    (target payload : List Nat)
    (hut : utf8Valid target = true) (htn : hasNul target = false) :
    dispatchOp db c opId .Message qos (target ++ 0 :: payload) =
      (match (sendMsg db c target none (target ++ 0 :: payload) (target.length + 1)).2 with
       | .error e =>
           if qos = .Processed then
             sendAck (sendMsg db c target none (target ++ 0 :: payload) (target.length + 1)).1
               c opId e.toByte
           else ((sendMsg db c target none (target ++ 0 :: payload) (target.length + 1)).1, .ok ())
       | .ok _ =>
           if qos = .Processed then
             sendAck (sendMsg db c target none (target ++ 0 :: payload) (target.length + 1)).1
               c opId RESPONSE_OK
           else ((sendMsg db c target none (target ++ 0 :: payload) (target.length + 1)).1, .ok ())) := by
  simp only [dispatchOp, takeToNul_append_nul _ _ htn, hut, hasNul_append_nul, if_true]

/-- Unfolding of `dispatchOp` on a well-formed `Broadcast` body. -/
theorem dispatchBroadcast_eq (db : BrokerDb) (c opId : List Nat) (qos : QoS)
    (target payload : List Nat)
    (hut : utf8Valid target = true) (htn : hasNul target = false) :
    dispatchOp db c opId .Broadcast qos (target ++ 0 :: payload) =
      (if qos = .Processed then
         sendAck (sendBroadcastM db c target none (target ++ 0 :: payload) (target.length + 1))
           c opId RESPONSE_OK
       else (sendBroadcastM db c target none (target ++ 0 :: payload) (target.length + 1),
             .ok ())) := by
  simp only [dispatchOp, takeToNul_append_nul _ _ htn, hut, hasNul_append_nul, if_true]

/-- Unfolding of `dispatchOp` on a well-formed `PublishTopic` body. -/
theorem dispatchPublish_eq (db : BrokerDb) (c opId : List Nat) (qos : QoS)
    (target payload : List Nat)
    (hut : utf8Valid target = true) (htn : hasNul target = false) :
    dispatchOp db c opId .PublishTopic qos (target ++ 0 :: payload) =
      (if qos = .Processed then
         sendAck (publishM db c target none (target ++ 0 :: payload) (target.length + 1))
           c opId RESPONSE_OK
       else (publishM db c target none (target ++ 0 :: payload) (target.length + 1),
             .ok ())) := by
  simp only [dispatchOp, takeToNul_append_nul _ _ htn, hut, hasNul_append_nul, if_true]

/-- Dispatch never changes the set of registered names (only queues). -/
theorem dispatchOp_map_fst (db : BrokerDb) (c opId : List Nat) (op : FrameOp)
    (qos : QoS) (body : List Nat) :
    (dispatchOp db c opId op qos body).1.clients.map Prod.fst
      = db.clients.map Prod.fst := by
  cases op <;> simp only [dispatchOp] <;> (repeat' split) <;>
    simp [sendAck_map_fst, sendMsg_map_fst, sendBroadcastM_map_fst, publishM_map_fst]

/-- Dispatch never changes the subscription matcher's client roots. -/
theorem dispatchOp_subs_clients (db : BrokerDb) (c opId : List Nat) (op : FrameOp)
    (qos : QoS) (body : List Nat) :
    (dispatchOp db c opId op qos body).1.subscriptions.clients
      = db.subscriptions.clients := by
  cases op <;> simp only [dispatchOp] <;> (repeat' split) <;>
    simp [sendAck_subscriptions, sendMsg_subscriptions, sendBroadcastM_subscriptions,
          publishM_subscriptions, subscribeSegs_clients, unsubscribeSegs_clients]

/-- Dispatch keeps a `.broker/warn` subscription entry, provided an
`UnsubscribeTopic` body does not name the warn topic. -/
theorem dispatchOp_warn_kept (db : BrokerDb) (c opId : List Nat) (op : FrameOp)
    (qos : QoS) (body : List Nat) (x : List Nat)
    (hok : op = FrameOp.UnsubscribeTopic → warnTopic ∉ splitSep 0 body)
    (h : (x, warnTopic) ∈ db.subscriptions.entries) :
    (x, warnTopic) ∈ (dispatchOp db c opId op qos body).1.subscriptions.entries := by
  cases op <;> simp only [dispatchOp] <;> (repeat' split) <;>
    simp only [sendAck_subscriptions, sendMsg_subscriptions,
               sendBroadcastM_subscriptions, publishM_subscriptions] <;>
    first
      | exact h
      | exact subscribeSegs_entries_sup _ _ _ _ h
      | exact unsubscribeSegs_entries_keep _ _ _ _ h (by simpa using hok rfl)

/-! ## The `.broker/warn` invariant -/

/-- Every registered name is a subscription-matcher root holding the
`.broker/warn` subscription entry. -/
def WarnInv (db : BrokerDb) : Prop :=
  ∀ n, n ∈ db.clients.map Prod.fst →
    n ∈ db.subscriptions.clients ∧ (n, warnTopic) ∈ db.subscriptions.entries

theorem registerClient_warnInv (db : BrokerDb) (n : List Nat) (h : WarnInv db) :
    WarnInv (db.registerClient n).1 := by
  unfold BrokerDb.registerClient
  match hl : lookupClient db.clients n with
  | some q => exact h
  | none =>
      intro m hm
      simp only [List.map_cons, List.mem_cons] at hm
      rcases hm with hmn | hmo
      · subst hmn
        constructor
        · rw [SubMapS.subscribe_clients]
          exact SubMapS.registerClient_mem_sub _ _
        · exact SubMapS.subscribe_self_mem _ _ _ (SubMapS.registerClient_mem_sub _ _)
      · obtain ⟨hc, he⟩ := h m hmo
        constructor
        · rw [SubMapS.subscribe_clients]
          exact SubMapS.registerClient_clients_sup _ _ _ hc
        · refine SubMapS.subscribe_entries_sup _ _ _ _ ?_
          rw [SubMapS.registerClient_entries]
          exact he

theorem unregisterClient_warnInv (db : BrokerDb) (n : List Nat) (h : WarnInv db) :
    WarnInv (db.unregisterClient n) := by
  intro m hm
  simp only [BrokerDb.unregisterClient, List.mem_map] at hm
  obtain ⟨e, hef, hfst⟩ := hm
  have hmem := List.mem_filter.mp hef
  have hne : m ≠ n := by
    have := hmem.2
    simp only [decide_eq_true_eq] at this
    rw [← hfst]; exact this
  obtain ⟨hc, he⟩ := h m (List.mem_map.mpr ⟨e, hmem.1, hfst⟩)
  constructor
  · exact List.mem_filter.mpr ⟨hc, by simpa using hne⟩
  · exact List.mem_filter.mpr ⟨he, by simpa using hne⟩

theorem dispatchOp_warnInv (db : BrokerDb) (c opId : List Nat) (op : FrameOp)
    (qos : QoS) (body : List Nat)
    (hok : op = FrameOp.UnsubscribeTopic → warnTopic ∉ splitSep 0 body)
    (h : WarnInv db) : WarnInv (dispatchOp db c opId op qos body).1 := by
  intro m hm
  rw [dispatchOp_map_fst] at hm
  obtain ⟨hc, he⟩ := h m hm
  exact ⟨by rw [dispatchOp_subs_clients]; exact hc,
         dispatchOp_warn_kept db c opId op qos body m hok he⟩

theorem clientSubscribe_fst_eq (db : BrokerDb) (c t : List Nat) (qos : QoS) :
    (clientSubscribe db c t qos).1
      = { db with subscriptions := (db.subscriptions.subscribe t c).1 } := by
  simp only [clientSubscribe]
  split <;> rfl

theorem clientUnsubscribe_fst_eq (db : BrokerDb) (c t : List Nat) (qos : QoS) :
    (clientUnsubscribe db c t qos).1
      = { db with subscriptions := (db.subscriptions.unsubscribe t c).1 } := by
  simp only [clientUnsubscribe]
  split <;> rfl

theorem clientSubscribe_warnInv (db : BrokerDb) (c t : List Nat) (qos : QoS)
    (h : WarnInv db) : WarnInv (clientSubscribe db c t qos).1 := by
  rw [clientSubscribe_fst_eq]
  intro m hm
  obtain ⟨hc, he⟩ := h m hm
  exact ⟨by rw [SubMapS.subscribe_clients]; exact hc,
         SubMapS.subscribe_entries_sup _ _ _ _ he⟩

theorem clientUnsubscribe_warnInv (db : BrokerDb) (c t : List Nat) (qos : QoS)
    (hne : t ≠ warnTopic) (h : WarnInv db) :
    WarnInv (clientUnsubscribe db c t qos).1 := by
  rw [clientUnsubscribe_fst_eq]
  intro m hm
  obtain ⟨hc, he⟩ := h m hm
  refine ⟨by rw [SubMapS.unsubscribe_clients]; exact hc,
          SubMapS.unsubscribe_entries_keep _ _ _ _ he ?_⟩
  intro hcontra
  exact hne (by injection hcontra with h1 h2; exact h2.symm)

theorem clientSend_warnInv (db : BrokerDb) (c tgt p : List Nat) (qos : QoS)
    (h : WarnInv db) : WarnInv (clientSend db c tgt p qos).1 := by
  have hfst : (clientSend db c tgt p qos).1 = (sendMsg db c tgt none p 0).1 := by
    simp only [clientSend]; split <;> rfl
  rw [hfst]
  intro m hm
  rw [sendMsg_map_fst] at hm
  obtain ⟨hc, he⟩ := h m hm
  rw [sendMsg_subscriptions]
  exact ⟨hc, he⟩

theorem clientSendBroadcast_warnInv (db : BrokerDb) (c tgt p : List Nat) (qos : QoS)
    (h : WarnInv db) : WarnInv (clientSendBroadcast db c tgt p qos).1 := by
  intro m hm
  have hfst : (clientSendBroadcast db c tgt p qos).1
      = sendBroadcastM db c tgt none p 0 := rfl
  rw [hfst] at hm ⊢
  rw [sendBroadcastM_map_fst] at hm
  obtain ⟨hc, he⟩ := h m hm
  rw [sendBroadcastM_subscriptions]
  exact ⟨hc, he⟩

theorem clientPublish_warnInv (db : BrokerDb) (c t p : List Nat) (qos : QoS)
    (h : WarnInv db) : WarnInv (clientPublish db c t p qos).1 := by
  intro m hm
  have hfst : (clientPublish db c t p qos).1 = publishM db c t none p 0 := rfl
  rw [hfst] at hm ⊢
  rw [publishM_map_fst] at hm
  obtain ⟨hc, he⟩ := h m hm
  rw [publishM_subscriptions]
  exact ⟨hc, he⟩

theorem reachKeepWarn_warnInv (db : BrokerDb) (h : ReachKeepWarn db) : WarnInv db := by
  induction h with
  | init => intro m hm; cases hm
  | register db n _ ih => exact registerClient_warnInv db n ih
  | unregister db n _ ih => exact unregisterClient_warnInv db n ih
  | dispatch db c opId op qos body _ hok ih => exact dispatchOp_warnInv db c opId op qos body hok ih
  | csub db c t qos _ ih => exact clientSubscribe_warnInv db c t qos ih
  | cunsub db c t qos _ hne ih => exact clientUnsubscribe_warnInv db c t qos hne ih
  | csend db c tgt p qos _ ih => exact clientSend_warnInv db c tgt p qos ih
  | cbcast db c tgt p qos _ ih => exact clientSendBroadcast_warnInv db c tgt p qos ih
  | cpub db c t p qos _ ih => exact clientPublish_warnInv db c t p qos ih

/-! ## Helper lemmas: sends, acks, reads -/

theorem sendMsg_notRegistered (db : BrokerDb) (c target : List Nat)
    (hd : Option (List Nat)) (b : List Nat) (p : Nat)
    (h : lookupClient db.clients target = none) :
    sendMsg db c target hd b p = (db, .error .notRegistered) := by
  simp only [sendMsg, h]

theorem sendMsg_closed (db : BrokerDb) (c target : List Nat)
    (hd : Option (List Nat)) (b : List Nat) (p : Nat)
    (h : lookupClient db.clients target = some none) :
    sendMsg db c target hd b p = (db, .error .notDelivered) := by
  simp only [sendMsg, h]

theorem sendAck_open (db : BrokerDb) (c opId : List Nat) (code : Nat)
    (q : List FrameData) (h : lookupClient db.clients c = some (some q)) :
    sendAck db c opId code
      = ({ db with clients := setClient db.clients c (some (q ++ [ackFrame opId code])) },
         .ok ()) := by
  simp only [sendAck, h]

theorem sendAck_lookup_ne (db : BrokerDb) (c opId : List Nat) (code : Nat)
    (r : List Nat) (h : r ≠ c) :
    lookupClient (sendAck db c opId code).1.clients r = lookupClient db.clients r := by
  unfold sendAck
  split
  · exact lookupClient_setClient_ne _ _ _ _ h
  · rfl

theorem enqueueIgnore_open_preserve (cs : List (List Nat × Queue)) (n m : List Nat)
    (f : FrameData) (q : List FrameData) (h : lookupClient cs m = some (some q)) :
    ∃ q2, lookupClient (enqueueIgnore cs n f) m = some (some q2) := by
  by_cases hmn : m = n
  · subst hmn
    exact ⟨q ++ [f], enqueueIgnore_lookup_open cs m f q h⟩
  · exact ⟨q, by rw [enqueueIgnore_lookup_ne cs n m f hmn]; exact h⟩

theorem deliverAll_open_preserve (cs : List (List Nat × Queue)) (f : FrameData)
    (ns : List (List Nat)) (m : List Nat) (q : List FrameData)
    (h : lookupClient cs m = some (some q)) :
    ∃ q2, lookupClient (deliverAll cs f ns) m = some (some q2) := by
  induction ns generalizing cs q with
  | nil => exact ⟨q, h⟩
  | cons n rest ih =>
      rw [deliverAll]
      obtain ⟨q2, hq2⟩ := enqueueIgnore_open_preserve cs n m f q h
      exact ih _ _ hq2

theorem sendBroadcastM_empty (db : BrokerDb) (c target : List Nat)
    (hd : Option (List Nat)) (b : List Nat) (p : Nat)
    (h : db.broadcasts.getClientsByMask target = []) :
    sendBroadcastM db c target hd b p = db := by
  simp only [sendBroadcastM, h, if_pos]

theorem publishM_empty (db : BrokerDb) (c topic : List Nat)
    (hd : Option (List Nat)) (b : List Nat) (p : Nat)
    (h : db.subscriptions.getSubscribers topic = []) :
    publishM db c topic hd b p = db := by
  simp only [publishM, h, if_pos]

theorem sendBroadcastM_lookup_notmem (db : BrokerDb) (c target : List Nat)
    (hd : Option (List Nat)) (b : List Nat) (p : Nat) (r : List Nat)
    (h : r ∉ db.broadcasts.getClientsByMask target) :
    lookupClient (sendBroadcastM db c target hd b p).clients r
      = lookupClient db.clients r := by
  simp only [sendBroadcastM]
  split
  · rfl
  · exact deliverAll_lookup_notmem _ _ _ _ h

theorem publishM_lookup_notmem (db : BrokerDb) (c topic : List Nat)
    (hd : Option (List Nat)) (b : List Nat) (p : Nat) (r : List Nat)
    (h : r ∉ db.subscriptions.getSubscribers topic) :
    lookupClient (publishM db c topic hd b p).clients r = lookupClient db.clients r := by
  simp only [publishM]
  split
  · rfl
  · exact deliverAll_lookup_notmem _ _ _ _ h

theorem sendBroadcastM_lookup_mem (db : BrokerDb) (c target : List Nat)
    (hd : Option (List Nat)) (b : List Nat) (p : Nat) (r : List Nat)
    (qr : List FrameData) (hnd : db.broadcasts.clients.Nodup)
    (hr : r ∈ db.broadcasts.getClientsByMask target)
    (hq : lookupClient db.clients r = some (some qr)) :
    lookupClient (sendBroadcastM db c target hd b p).clients r
      = some (some (qr ++ [⟨.Broadcast, some c, none, hd, b, p⟩])) := by
  simp only [sendBroadcastM]
  split
  · next hempty => rw [hempty] at hr; cases hr
  · exact deliverAll_lookup_open _ _ _ _ _ (List.Nodup.filter _ hnd) hr hq

theorem publishM_lookup_mem (db : BrokerDb) (c topic : List Nat)
    (hd : Option (List Nat)) (b : List Nat) (p : Nat) (r : List Nat)
    (qr : List FrameData) (hnd : db.subscriptions.clients.Nodup)
    (hr : r ∈ db.subscriptions.getSubscribers topic)
    (hq : lookupClient db.clients r = some (some qr)) :
    lookupClient (publishM db c topic hd b p).clients r
      = some (some (qr ++ [⟨.Publish, some c, some topic, hd, b, p⟩])) := by
  simp only [publishM]
  split
  · next hempty => rw [hempty] at hr; cases hr
  · exact deliverAll_lookup_open _ _ _ _ _ (List.Nodup.filter _ hnd) hr hq

theorem sendBroadcastM_lookup_closed (db : BrokerDb) (c target : List Nat)
    (hd : Option (List Nat)) (b : List Nat) (p : Nat) (r : List Nat)
    (h : lookupClient db.clients r = some none) :
    lookupClient (sendBroadcastM db c target hd b p).clients r = some none := by
  simp only [sendBroadcastM]
  split
  · exact h
  · exact deliverAll_lookup_closed _ _ _ _ h

theorem publishM_lookup_closed (db : BrokerDb) (c topic : List Nat)
    (hd : Option (List Nat)) (b : List Nat) (p : Nat) (r : List Nat)
    (h : lookupClient db.clients r = some none) :
    lookupClient (publishM db c topic hd b p).clients r = some none := by
  simp only [publishM]
  split
  · exact h
  · exact deliverAll_lookup_closed _ _ _ _ h

theorem sendBroadcastM_open_preserve (db : BrokerDb) (c target : List Nat)
    (hd : Option (List Nat)) (b : List Nat) (p : Nat) (m : List Nat)
    (q : List FrameData) (h : lookupClient db.clients m = some (some q)) :
    ∃ q2, lookupClient (sendBroadcastM db c target hd b p).clients m
      = some (some q2) := by
  simp only [sendBroadcastM]
  split
  · exact ⟨q, h⟩
  · exact deliverAll_open_preserve _ _ _ _ _ h

theorem publishM_open_preserve (db : BrokerDb) (c topic : List Nat)
    (hd : Option (List Nat)) (b : List Nat) (p : Nat) (m : List Nat)
    (q : List FrameData) (h : lookupClient db.clients m = some (some q)) :
    ∃ q2, lookupClient (publishM db c topic hd b p).clients m = some (some q2) := by
  simp only [publishM]
  split
  · exact ⟨q, h⟩
  · exact deliverAll_open_preserve _ _ _ _ _ h

theorem readUnbounded_exact (l : List Nat) (x : ByteStream) :
    readUnbounded l.length (l.map some ++ x) = .ok (l, x) := by
  induction l with
  | nil =>
      cases x with
      | nil => simp [readUnbounded, readUnboundedAux]
      | cons b s => simp [readUnbounded, readUnboundedAux]
  | cons b rest ih =>
      simp only [readUnbounded] at ih
      simp only [List.length_cons, List.map_cons, List.cons_append, readUnbounded,
                 readUnboundedAux, List.append_eq, ih]

theorem lookupClient_unregister_self (db : BrokerDb) (c : List Nat) :
    lookupClient (db.unregisterClient c).clients c = none :=
  lookupClient_filter_self db.clients c

/-! ## Registration unfolding helpers -/

theorem registerClient_occupied_eq (db : BrokerDb) (n : List Nat) (q : Queue)
    (h : lookupClient db.clients n = some q) :
    db.registerClient n = (db, .error .busy) := by
  simp only [BrokerDb.registerClient, h]

theorem registerClient_vacant_eq (db : BrokerDb) (n : List Nat)
    (h : lookupClient db.clients n = none) :
    db.registerClient n =
      ({ clients := (n, some []) :: db.clients,
         broadcasts := db.broadcasts.registerClient n,
         subscriptions := ((db.subscriptions.registerClient n).subscribe warnTopic n).1 },
       .ok ()) := by
  simp only [BrokerDb.registerClient, h]

/-! ## Claim theorems -/

/-- C2: for every call to `register(handle)`: if a client with the same
name is already registered, registration fails with `Busy` and none of
the three index structures (client name map, BroadcastMatcher,
SubscriptionMatcher) is modified — the call returns the database
unchanged; otherwise the call succeeds and the handle is installed in
the registry (with a fresh open queue), in the broadcast matcher and in
the subscription matcher, auto-subscribed to `.broker/warn`. -/
theorem C2_register_busy_or_install (db : BrokerDb) (n : List Nat) :
    (lookupClient db.clients n ≠ none →
      db.registerClient n = (db, Except.error ErrorKind.busy))
    ∧ (lookupClient db.clients n = none →
        (db.registerClient n).2 = Except.ok ()
        ∧ lookupClient (db.registerClient n).1.clients n = some (some [])
        ∧ n ∈ (db.registerClient n).1.broadcasts.clients
        ∧ n ∈ (db.registerClient n).1.subscriptions.clients
        ∧ (n, warnTopic) ∈ (db.registerClient n).1.subscriptions.entries) := by
  constructor
  · intro h
    match hl : lookupClient db.clients n with
    | some q => exact registerClient_occupied_eq db n q hl
    | none => exact absurd hl h
  · intro h
    rw [registerClient_vacant_eq db n h]
    refine ⟨rfl, by simp [lookupClient], BroadcastMapS.registerClient_mem_bcast _ _, ?_, ?_⟩
    · rw [SubMapS.subscribe_clients]
      exact SubMapS.registerClient_mem_sub _ _
    · exact SubMapS.subscribe_self_mem _ _ _ (SubMapS.registerClient_mem_sub _ _)

/-- Witness for C2: on the empty broker, registering `"a"` succeeds;
registering `"a"` again fails with `Busy` and leaves the database
unchanged. -/
theorem C2_register_busy_or_install_witness :
    (BrokerDb.initial.registerClient [97]).2 = Except.ok ()
    ∧ ((BrokerDb.initial.registerClient [97]).1.registerClient [97])
        = ((BrokerDb.initial.registerClient [97]).1, Except.error ErrorKind.busy) :=
  ⟨((C2_register_busy_or_install BrokerDb.initial [97]).2 (by decide)).1,
   (C2_register_busy_or_install (BrokerDb.initial.registerClient [97]).1 [97]).1
     (by decide)⟩

/-- C9: the in-process registration API performs no name validation: for
every name not currently in the registry — including the empty name and
names whose first byte is `.` — `Broker::register_client` succeeds and
installs the client; on the wire handshake path the very same name, when
empty or dot-initial, is rejected with `ERR_DATA` before registration is
attempted. -/
theorem C9_register_no_validation (db : BrokerDb) (n : List Nat) :
    (lookupClient db.clients n = none →
      (db.registerClient n).2 = Except.ok ()
      ∧ lookupClient (db.registerClient n).1.clients n = some (some []))
    ∧ (utf8Valid n = true → (n = [] ∨ n.getD 0 0 = 46) →
        handleName db n = (db, [ERR_DATA], Except.error ErrorKind.data)) := by
  constructor
  · intro h
    rw [registerClient_vacant_eq db n h]
    exact ⟨rfl, by simp [lookupClient]⟩
  · intro hu hbad
    simp only [handleName, hu, if_true, if_pos hbad]

/-- Witness for C9: the empty name and the name `".a"` both register
successfully in-process on the empty broker, while the wire handshake
rejects `".a"` with `ERR_DATA`. -/
theorem C9_register_no_validation_witness :
    (BrokerDb.initial.registerClient []).2 = Except.ok ()
    ∧ (BrokerDb.initial.registerClient [46, 97]).2 = Except.ok ()
    ∧ handleName BrokerDb.initial [46, 97]
        = (BrokerDb.initial, [ERR_DATA], Except.error ErrorKind.data) :=
  ⟨((C9_register_no_validation BrokerDb.initial []).1 (by decide)).1,
   ((C9_register_no_validation BrokerDb.initial [46, 97]).1 (by decide)).1,
   (C9_register_no_validation BrokerDb.initial [46, 97]).2 (by decide) (by decide)⟩

/-- C10: every in-process client operation invoked with QoS `Processed`
that returns successfully hands back a confirmation channel that already
contains `Ok(())` at the moment the call returns — the value is the
constant produced by `make_confirm_channel!`, independent of whether any
recipient received the frame. -/
theorem C10_confirm_already_ok (db : BrokerDb) (c t tgt p : List Nat)
    (conf : OpConfirm) :
    ((clientSubscribe db c t .Processed).2 = Except.ok conf →
        conf = some (Except.ok ()))
    ∧ ((clientUnsubscribe db c t .Processed).2 = Except.ok conf →
        conf = some (Except.ok ()))
    ∧ ((clientSend db c tgt p .Processed).2 = Except.ok conf →
        conf = some (Except.ok ()))
    ∧ ((clientSendBroadcast db c tgt p .Processed).2 = Except.ok conf →
        conf = some (Except.ok ()))
    ∧ ((clientPublish db c t p .Processed).2 = Except.ok conf →
        conf = some (Except.ok ())) := by
  refine ⟨?_, ?_, ?_, ?_, ?_⟩
  · intro h
    simp only [clientSubscribe, makeConfirmChannel] at h
    split at h
    · exact (Except.ok.inj h).symm
    · cases h
  · intro h
    simp only [clientUnsubscribe, makeConfirmChannel] at h
    split at h
    · exact (Except.ok.inj h).symm
    · cases h
  · intro h
    simp only [clientSend, makeConfirmChannel] at h
    split at h
    · cases h
    · exact (Except.ok.inj h).symm
  · intro h
    simp only [clientSendBroadcast, makeConfirmChannel] at h
    exact (Except.ok.inj h).symm
  · intro h
    simp only [clientPublish, makeConfirmChannel] at h
    exact (Except.ok.inj h).symm

/-- Witness for C10: an in-process broadcast with QoS `Processed` on the
empty broker returns a confirmation channel already holding `Ok(())`. -/
theorem C10_confirm_already_ok_witness :
    (clientSendBroadcast BrokerDb.initial [97] [98] [1] .Processed).2
      = Except.ok (some (Except.ok ()))
    ∧ (some (Except.ok ()) : OpConfirm) = some (Except.ok ()) :=
  ⟨by decide,
   (C10_confirm_already_ok BrokerDb.initial [97] [98] [98] [1]
      (some (Except.ok ()))).2.2.2.1 (by decide)⟩

/-- Counterexample for C5: the single byte `0xFF` is not valid UTF-8;
the handshake then closes the connection WITHOUT writing any byte — in
particular it does not write `ERR_DATA`, contrary to the claim (the
`std::str::from_utf8(..)?` at the top of the name phase propagates
before any validation write). -/
theorem C5_utf8_no_errdata_counterexample :
    utf8Valid [255] = false
    ∧ handleName BrokerDb.initial [255]
        = (BrokerDb.initial, [], Except.error ErrorKind.data)
    ∧ ([] : List Nat) ≠ [ERR_DATA] := by decide

/-- C5 amended: a received name that is not valid UTF-8 closes the
connection with NO byte written; an empty name or one starting with `.`
(byte 46) causes the single byte `ERR_DATA` to be written and the
connection closed; a registration failure writes the error kind as a
single byte and closes; after a valid name and successful registration
the server writes `RESPONSE_OK` and the client is installed. -/
theorem C5_handshake_name_policy (db : BrokerDb) (nb : List Nat) :
    (utf8Valid nb = false →
      handleName db nb = (db, [], Except.error ErrorKind.data))
    ∧ (utf8Valid nb = true → (nb = [] ∨ nb.getD 0 0 = 46) →
        handleName db nb = (db, [ERR_DATA], Except.error ErrorKind.data))
    ∧ (utf8Valid nb = true → ¬(nb = [] ∨ nb.getD 0 0 = 46) →
        lookupClient db.clients nb ≠ none →
        handleName db nb = (db, [ErrorKind.busy.toByte], Except.error ErrorKind.busy))
    ∧ (utf8Valid nb = true → ¬(nb = [] ∨ nb.getD 0 0 = 46) →
        lookupClient db.clients nb = none →
        handleName db nb = ((db.registerClient nb).1, [RESPONSE_OK], Except.ok ())
        ∧ lookupClient (db.registerClient nb).1.clients nb = some (some [])) := by
  refine ⟨?_, ?_, ?_, ?_⟩
  · intro h
    simp only [handleName, h]
    simp
  · intro hu hbad
    simp only [handleName, hu, if_true, if_pos hbad]
  · intro hu hbad h
    match hl : lookupClient db.clients nb with
    | none => exact absurd hl h
    | some q =>
        simp only [handleName, hu, if_true, if_neg hbad,
                   registerClient_occupied_eq db nb q hl]
  · intro hu hbad h
    rw [registerClient_vacant_eq db nb h]
    constructor
    · simp only [handleName, hu, if_true, if_neg hbad,
                 registerClient_vacant_eq db nb h]
    · simp [lookupClient]

/-- Witness for C5 (amended): on the empty broker, a name starting with
`.` gets `ERR_DATA`; the valid name `"bc"` registers and gets
`RESPONSE_OK`. -/
theorem C5_handshake_name_policy_witness :
    handleName BrokerDb.initial [46, 97]
      = (BrokerDb.initial, [ERR_DATA], Except.error ErrorKind.data)
    ∧ handleName BrokerDb.initial [98, 99]
        = ((BrokerDb.initial.registerClient [98, 99]).1, [RESPONSE_OK], Except.ok ()) :=
  ⟨(C5_handshake_name_policy BrokerDb.initial [46, 97]).2.1 (by decide) (by decide),
   ((C5_handshake_name_policy BrokerDb.initial [98, 99]).2.2.2 (by decide) (by decide)
      (by decide)).1⟩

/-- Counterexample for C4: the 9-byte header `[1,0,0,0,0,9,0,0,0]` is
not all-zero (its op-id field and length field are non-zero), yet the
read loop treats it as a ping: the flags byte alone decides.  The step
consumes exactly the 9 header bytes, reads no body (although the length
field says 9), sends nothing, changes nothing and continues. -/
theorem C4_ping_flags_only_counterexample :
    parseHeader [1, 0, 0, 0, 0, 9, 0, 0, 0] = HeaderParse.ping
    ∧ ([1, 0, 0, 0, 0, 9, 0, 0, 0] : List Nat) ≠ List.replicate 9 0
    ∧ readStep BrokerDb.initial [97] (([1, 0, 0, 0, 0, 9, 0, 0, 0] : List Nat).map some)
        = StepRes.cont BrokerDb.initial [] := by decide

/-- C4 amended: the read loop treats an operation frame as a no-op ping
exactly when the flags byte (header byte 4) is zero, not when the whole
9-byte header is zero; for a ping it reads no body bytes, sends nothing
in response, changes no state and leaves the connection open. -/
theorem C4_ping_iff_flags_zero (db : BrokerDb) (c : List Nat) (hdr : List Nat)
    (rest : ByteStream) (hlen : hdr.length = 9) :
    (parseHeader hdr = HeaderParse.ping ↔ hdr.getD 4 0 = 0)
    ∧ (hdr.getD 4 0 = 0 →
        readStep db c (hdr.map some ++ rest) = StepRes.cont db rest) := by
  constructor
  · constructor
    · intro h
      by_contra hf
      simp only [parseHeader, if_neg hf] at h
      revert h
      split <;> simp
    · intro hf
      simp only [parseHeader]
      rw [if_pos hf]
  · intro hf
    have hping : parseHeader hdr = HeaderParse.ping := by
      simp only [parseHeader]
      rw [if_pos hf]
    have hread : readUnbounded 9 (hdr.map some ++ rest) = .ok (hdr, rest) := by
      rw [← hlen]
      exact readUnbounded_exact hdr rest
    simp only [readStep, hread, hping]

/-- Witness for C4 (amended): a concrete header with non-zero op id and
non-zero length field but zero flags is a ping and consumes only its 9
bytes. -/
theorem C4_ping_iff_flags_zero_witness :
    (parseHeader [1, 0, 0, 0, 0, 9, 0, 0, 0] = HeaderParse.ping
      ↔ ([1, 0, 0, 0, 0, 9, 0, 0, 0] : List Nat).getD 4 0 = 0)
    ∧ readStep BrokerDb.initial [98]
        (([1, 0, 0, 0, 0, 9, 0, 0, 0] : List Nat).map some ++ [some 7])
      = StepRes.cont BrokerDb.initial [some 7] :=
  ⟨(C4_ping_iff_flags_zero BrokerDb.initial [98] [1, 0, 0, 0, 0, 9, 0, 0, 0]
      [some 7] (by decide)).1,
   (C4_ping_iff_flags_zero BrokerDb.initial [98] [1, 0, 0, 0, 0, 9, 0, 0, 0]
      [some 7] (by decide)).2 (by decide)⟩

/-- Counterexample for C1: a `SubscribeTopic` operation whose body is the
single invalid-UTF-8 byte `0xFF`, dispatched with QoS `Processed` by a
registered client with an empty open queue, fails — but no error ack is
returned (the database, including the client's own queue, is unchanged)
and the read loop returns an error, which tears the connection down
rather than keeping it open. -/
theorem C1_failing_op_no_ack_counterexample :
    dispatchOp (BrokerDb.initial.registerClient [97]).1 [97] [1, 2, 3, 4]
        FrameOp.SubscribeTopic QoS.Processed [255]
      = ((BrokerDb.initial.registerClient [97]).1, Except.error ErrorKind.data)
    ∧ lookupClient (BrokerDb.initial.registerClient [97]).1.clients [97]
        = some (some []) := by decide

/-- C1 amended: for a `Message` operation whose dispatch fails (target
absent from the registry → `not_registered`, or target present with a
closed channel → the send error), QoS `Processed` returns the error kind
to the originating client via an ack frame appended to its queue and the
read loop continues (connection open), while QoS `No` silently drops the
error and the connection also stays open.  (Malformed bodies — invalid
UTF-8 or a missing NUL — instead error out of the read loop and close
the connection, per the counterexample.) -/
theorem C1_message_error_ack_policy (db : BrokerDb) (c opId target payload : List Nat)
    (qc : List FrameData)
    (hut : utf8Valid target = true) (htn : hasNul target = false)
    (hc : lookupClient db.clients c = some (some qc)) :
    (lookupClient db.clients target = none →
      dispatchOp db c opId .Message .Processed (target ++ 0 :: payload)
        = sendAck db c opId ErrorKind.notRegistered.toByte
      ∧ lookupClient
          (dispatchOp db c opId .Message .Processed (target ++ 0 :: payload)).1.clients c
          = some (some (qc ++ [ackFrame opId ErrorKind.notRegistered.toByte]))
      ∧ (dispatchOp db c opId .Message .Processed (target ++ 0 :: payload)).2
          = Except.ok ()
      ∧ dispatchOp db c opId .Message .No (target ++ 0 :: payload)
          = (db, Except.ok ()))
    ∧ (lookupClient db.clients target = some none →
        dispatchOp db c opId .Message .Processed (target ++ 0 :: payload)
          = sendAck db c opId ErrorKind.notDelivered.toByte
        ∧ (dispatchOp db c opId .Message .Processed (target ++ 0 :: payload)).2
            = Except.ok ()
        ∧ dispatchOp db c opId .Message .No (target ++ 0 :: payload)
            = (db, Except.ok ())) := by
  constructor
  · intro htgt
    have hmsg := sendMsg_notRegistered db c target none (target ++ 0 :: payload)
      (target.length + 1) htgt
    have hdisp : dispatchOp db c opId .Message .Processed (target ++ 0 :: payload)
        = sendAck db c opId ErrorKind.notRegistered.toByte := by
      rw [dispatchMessage_eq db c opId .Processed target payload hut htn, hmsg]
      rfl
    have hack := sendAck_open db c opId ErrorKind.notRegistered.toByte qc hc
    refine ⟨hdisp, ?_, ?_, ?_⟩
    · rw [hdisp, hack]
      exact lookupClient_setClient_self db.clients c _ (by rw [hc]; exact fun h => by cases h)
    · rw [hdisp, hack]
    · rw [dispatchMessage_eq db c opId .No target payload hut htn, hmsg]
      rfl
  · intro htgt
    have hmsg := sendMsg_closed db c target none (target ++ 0 :: payload)
      (target.length + 1) htgt
    have hdisp : dispatchOp db c opId .Message .Processed (target ++ 0 :: payload)
        = sendAck db c opId ErrorKind.notDelivered.toByte := by
      rw [dispatchMessage_eq db c opId .Processed target payload hut htn, hmsg]
      rfl
    have hack := sendAck_open db c opId ErrorKind.notDelivered.toByte qc hc
    refine ⟨hdisp, ?_, ?_⟩
    · rw [hdisp, hack]
    · rw [dispatchMessage_eq db c opId .No target payload hut htn, hmsg]
      rfl

/-- Witness for C1 (amended): client `"a"` sends a Message to the absent
target `"Z"`: with QoS `Processed` its queue receives the
`not_registered` ack and the result is ok; with QoS `No` nothing changes
and the result is ok. -/
theorem C1_message_error_ack_policy_witness :
    lookupClient
      (dispatchOp (BrokerDb.initial.registerClient [97]).1 [97] [1, 2, 3, 4]
        FrameOp.Message QoS.Processed ([90] ++ 0 :: [104, 105])).1.clients [97]
      = some (some [ackFrame [1, 2, 3, 4] ErrorKind.notRegistered.toByte])
    ∧ (dispatchOp (BrokerDb.initial.registerClient [97]).1 [97] [1, 2, 3, 4]
        FrameOp.Message QoS.Processed ([90] ++ 0 :: [104, 105])).2 = Except.ok ()
    ∧ dispatchOp (BrokerDb.initial.registerClient [97]).1 [97] [1, 2, 3, 4]
        FrameOp.Message QoS.No ([90] ++ 0 :: [104, 105])
      = ((BrokerDb.initial.registerClient [97]).1, Except.ok ()) := by
  have h := (C1_message_error_ack_policy (BrokerDb.initial.registerClient [97]).1 [97]
    [1, 2, 3, 4] [90] [104, 105] [] (by decide) (by decide) (by decide)).1 (by decide)
  exact ⟨h.2.1, h.2.2.1, h.2.2.2⟩

/-- Counterexample for C7: the state reached by registering client `"a"`
and then dispatching a wire `UnsubscribeTopic` whose body is
`.broker/warn` is reachable, has `"a"` registered, and yet `"a"` is not
a subscriber of `.broker/warn` — the invariant is not preserved by every
operation. -/
theorem C7_warn_not_invariant_counterexample :
    Reach (dispatchOp (BrokerDb.initial.registerClient [97]).1 [97] [0, 0, 0, 0]
        FrameOp.UnsubscribeTopic QoS.No warnTopic).1
    ∧ lookupClient (dispatchOp (BrokerDb.initial.registerClient [97]).1 [97] [0, 0, 0, 0]
        FrameOp.UnsubscribeTopic QoS.No warnTopic).1.clients [97] = some (some [])
    ∧ [97] ∉ (dispatchOp (BrokerDb.initial.registerClient [97]).1 [97] [0, 0, 0, 0]
        FrameOp.UnsubscribeTopic QoS.No warnTopic).1.subscriptions.getSubscribers
          warnTopic :=
  ⟨Reach.dispatch _ _ _ _ _ _ (Reach.register _ _ Reach.init), by decide, by decide⟩

/-- C7 amended: at every broker state reachable by operations that never
unsubscribe from `.broker/warn` (wire `UnsubscribeTopic` bodies not
naming it, in-process unsubscribes not naming it), every registered
client is a subscriber of `.broker/warn`; an explicit unsubscribe of
that topic, however, removes the subscription while the client stays
registered (see the counterexample). -/
theorem C7_warn_invariant_when_kept (db : BrokerDb) (h : ReachKeepWarn db) :
    ∀ n, n ∈ db.clients.map Prod.fst →
      n ∈ db.subscriptions.getSubscribers warnTopic := by
  intro n hn
  obtain ⟨hc, he⟩ := reachKeepWarn_warnInv db h n hn
  exact SubMapS.mem_getSubscribers _ _ _ hc (n, warnTopic) he rfl
    (show topicMatch warnTopic warnTopic = true by decide)

/-- Witness for C7 (amended): after registering `"a"` on the empty
broker, `"a"` is a subscriber of `.broker/warn`. -/
theorem C7_warn_invariant_when_kept_witness :
    [97] ∈ (BrokerDb.initial.registerClient [97]).1.clients.map Prod.fst
    ∧ [97] ∈ (BrokerDb.initial.registerClient
        [97]).1.subscriptions.getSubscribers warnTopic :=
  ⟨by decide,
   C7_warn_invariant_when_kept (BrokerDb.initial.registerClient [97]).1
     (ReachKeepWarn.register _ _ ReachKeepWarn.init) [97] (by decide)⟩

/-- C8: in the Running state the 9-byte op-header read is not bounded by
any timeout (a stall in front of it is waited through), while once a
header announcing a body has been received, the body read is bounded: a
stall there yields a timeout error that terminates the read loop, after
which `handle_peer` unregisters the client — the connection is torn
down. -/
theorem C8_header_unbounded_body_bounded (db : BrokerDb) (c : List Nat)
    (s : ByteStream) (fuel : Nat) (hdr : List Nat) (rest : ByteStream)
    (o : FrameOp) (q : QoS) (len : Nat)
    (hlen : hdr.length = 9) (hp : parseHeader hdr = HeaderParse.op o q len)
    (hpos : 0 < len) :
    readStep db c (none :: s) = readStep db c s
    ∧ readStep db c (hdr.map some ++ none :: rest) = StepRes.halt db ErrorKind.timeout
    ∧ peerAfterReader db c (fuel + 1) (hdr.map some ++ none :: rest)
        = (db.unregisterClient c, Except.error ErrorKind.timeout)
    ∧ lookupClient (db.unregisterClient c).clients c = none := by
  have h1 : readStep db c (none :: s) = readStep db c s := rfl
  have hread : readUnbounded 9 (hdr.map some ++ none :: rest)
      = .ok (hdr, none :: rest) := by
    rw [← hlen]
    exact readUnbounded_exact hdr (none :: rest)
  have hbody : readBounded len (none :: rest) = .error .timeout := by
    cases len with
    | zero => exact absurd hpos (lt_irrefl 0)
    | succ k => rfl
  have h2 : readStep db c (hdr.map some ++ none :: rest)
      = StepRes.halt db ErrorKind.timeout := by
    simp only [readStep, hread, hp, hbody]
  refine ⟨h1, h2, ?_, lookupClient_unregister_self db c⟩
  simp only [peerAfterReader, readLoop, h2]

/-- Witness for C8: header `[0,0,0,0,65,1,0,0,0]` (op `Message`, QoS
`Processed`, body length 1) followed by a stall: the read loop halts
with a timeout and the client is unregistered. -/
theorem C8_header_unbounded_body_bounded_witness :
    readStep BrokerDb.initial [97] [none] = readStep BrokerDb.initial [97] []
    ∧ readStep BrokerDb.initial [97]
        (([0, 0, 0, 0, 65, 1, 0, 0, 0] : List Nat).map some ++ none :: [])
      = StepRes.halt BrokerDb.initial ErrorKind.timeout
    ∧ peerAfterReader BrokerDb.initial [97] 1
        (([0, 0, 0, 0, 65, 1, 0, 0, 0] : List Nat).map some ++ none :: [])
      = (BrokerDb.initial.unregisterClient [97], Except.error ErrorKind.timeout)
    ∧ lookupClient (BrokerDb.initial.unregisterClient [97]).clients [97] = none :=
  C8_header_unbounded_body_bounded BrokerDb.initial [97] [] 0
    [0, 0, 0, 0, 65, 1, 0, 0, 0] [] FrameOp.Message QoS.Processed 1
    (by decide) (by decide) (by decide)

/-- C6: `Broadcast` and `PublishTopic` dispatch never fail: the read
loop continues with `.ok` for both QoS levels; an empty match leaves the
routing state untouched (no-op); each matched open recipient other than
the sender gets exactly the one shared frame appended; a recipient whose
channel is closed is simply skipped — neither the other recipients nor
the result is affected; unmatched clients are untouched; and with QoS
`Processed` an `RESPONSE_OK` ack is appended to the sender's queue in
every case, including the empty match. -/
theorem C6_broadcast_publish_never_fail (db : BrokerDb) (c opId target payload : List Nat)
    (qos : QoS) (qc : List FrameData)
    (hut : utf8Valid target = true) (htn : hasNul target = false)
    (hc : lookupClient db.clients c = some (some qc)) :
    ((dispatchOp db c opId .Broadcast qos (target ++ 0 :: payload)).2 = Except.ok ()
     ∧ (qos = .Processed → ∃ q2,
          lookupClient
            (dispatchOp db c opId .Broadcast qos (target ++ 0 :: payload)).1.clients c
            = some (some (q2 ++ [ackFrame opId RESPONSE_OK])))
     ∧ (db.broadcasts.getClientsByMask target = [] →
          sendBroadcastM db c target none (target ++ 0 :: payload) (target.length + 1)
            = db)
     ∧ (∀ r qr, db.broadcasts.clients.Nodup →
          r ∈ db.broadcasts.getClientsByMask target → r ≠ c →
          lookupClient db.clients r = some (some qr) →
          lookupClient
            (dispatchOp db c opId .Broadcast qos (target ++ 0 :: payload)).1.clients r
            = some (some (qr ++
                [⟨.Broadcast, some c, none, none, target ++ 0 :: payload,
                  target.length + 1⟩])))
     ∧ (∀ r, r ≠ c → lookupClient db.clients r = some none →
          lookupClient
            (dispatchOp db c opId .Broadcast qos (target ++ 0 :: payload)).1.clients r
            = some none)
     ∧ (∀ r, r ≠ c → r ∉ db.broadcasts.getClientsByMask target →
          lookupClient
            (dispatchOp db c opId .Broadcast qos (target ++ 0 :: payload)).1.clients r
            = lookupClient db.clients r))
    ∧ ((dispatchOp db c opId .PublishTopic qos (target ++ 0 :: payload)).2 = Except.ok ()
     ∧ (qos = .Processed → ∃ q2,
          lookupClient
            (dispatchOp db c opId .PublishTopic qos (target ++ 0 :: payload)).1.clients c
            = some (some (q2 ++ [ackFrame opId RESPONSE_OK])))
     ∧ (db.subscriptions.getSubscribers target = [] →
          publishM db c target none (target ++ 0 :: payload) (target.length + 1) = db)
     ∧ (∀ r qr, db.subscriptions.clients.Nodup →
          r ∈ db.subscriptions.getSubscribers target → r ≠ c →
          lookupClient db.clients r = some (some qr) →
          lookupClient
            (dispatchOp db c opId .PublishTopic qos (target ++ 0 :: payload)).1.clients r
            = some (some (qr ++
                [⟨.Publish, some c, some target, none, target ++ 0 :: payload,
                  target.length + 1⟩])))
     ∧ (∀ r, r ≠ c → lookupClient db.clients r = some none →
          lookupClient
            (dispatchOp db c opId .PublishTopic qos (target ++ 0 :: payload)).1.clients r
            = some none)
     ∧ (∀ r, r ≠ c → r ∉ db.subscriptions.getSubscribers target →
          lookupClient
            (dispatchOp db c opId .PublishTopic qos (target ++ 0 :: payload)).1.clients r
            = lookupClient db.clients r)) := by
  have hdispB := dispatchBroadcast_eq db c opId qos target payload hut htn
  have hdispP := dispatchPublish_eq db c opId qos target payload hut htn
  obtain ⟨qB, hqB⟩ := sendBroadcastM_open_preserve db c target none
    (target ++ 0 :: payload) (target.length + 1) c qc hc
  obtain ⟨qP, hqP⟩ := publishM_open_preserve db c target none
    (target ++ 0 :: payload) (target.length + 1) c qc hc
  have hackB := sendAck_open _ c opId RESPONSE_OK qB hqB
  have hackP := sendAck_open _ c opId RESPONSE_OK qP hqP
  have hkeepB : ∀ r, r ≠ c →
      lookupClient (dispatchOp db c opId .Broadcast qos (target ++ 0 :: payload)).1.clients r
        = lookupClient (sendBroadcastM db c target none (target ++ 0 :: payload)
            (target.length + 1)).clients r := by
    intro r hr
    rw [hdispB]
    cases qos with
    | No => simp
    | Processed =>
        simp only [if_pos rfl]
        exact sendAck_lookup_ne _ _ _ _ _ hr
  have hkeepP : ∀ r, r ≠ c →
      lookupClient (dispatchOp db c opId .PublishTopic qos (target ++ 0 :: payload)).1.clients r
        = lookupClient (publishM db c target none (target ++ 0 :: payload)
            (target.length + 1)).clients r := by
    intro r hr
    rw [hdispP]
    cases qos with
    | No => simp
    | Processed =>
        simp only [if_pos rfl]
        exact sendAck_lookup_ne _ _ _ _ _ hr
  refine ⟨⟨?_, ?_, ?_, ?_, ?_, ?_⟩, ⟨?_, ?_, ?_, ?_, ?_, ?_⟩⟩
  · rw [hdispB]
    cases qos with
    | No => simp
    | Processed =>
        simp only [if_pos rfl, hackB]
        rfl
  · intro hq
    subst hq
    rw [hdispB]
    simp only [if_pos rfl, hackB]
    refine ⟨qB, ?_⟩
    exact lookupClient_setClient_self _ c _ (by rw [hqB]; exact fun h => by cases h)
  · intro hempty
    exact sendBroadcastM_empty db c target none _ _ hempty
  · intro r qr hnd hr hrc hq
    rw [hkeepB r hrc]
    exact sendBroadcastM_lookup_mem db c target none _ _ r qr hnd hr hq
  · intro r hrc hq
    rw [hkeepB r hrc]
    exact sendBroadcastM_lookup_closed db c target none _ _ r hq
  · intro r hrc hr
    rw [hkeepB r hrc]
    exact sendBroadcastM_lookup_notmem db c target none _ _ r hr
  · rw [hdispP]
    cases qos with
    | No => simp
    | Processed =>
        simp only [if_pos rfl, hackP]
        rfl
  · intro hq
    subst hq
    rw [hdispP]
    simp only [if_pos rfl, hackP]
    refine ⟨qP, ?_⟩
    exact lookupClient_setClient_self _ c _ (by rw [hqP]; exact fun h => by cases h)
  · intro hempty
    exact publishM_empty db c target none _ _ hempty
  · intro r qr hnd hr hrc hq
    rw [hkeepP r hrc]
    exact publishM_lookup_mem db c target none _ _ r qr hnd hr hq
  · intro r hrc hq
    rw [hkeepP r hrc]
    exact publishM_lookup_closed db c target none _ _ r hq
  · intro r hrc hr
    rw [hkeepP r hrc]
    exact publishM_lookup_notmem db c target none _ _ r hr

/-- A concrete broker for the fan-out witness: sender `"a"` (open,
empty queue), recipient `"b"` (open), recipient `"c"` (closed channel);
`"b"` and `"c"` are in the broadcast matcher and both subscribe to
topic `"t"`. -/
def witnessDb : BrokerDb :=
  ⟨[([97], some []), ([98], some []), ([99], none)],
   ⟨[[98], [99]]⟩,
   ⟨[[98], [99]], [([98], [116]), ([99], [116])]⟩⟩

/-- Witness for C6: broadcasting to the mask `"?"` with QoS `Processed`
succeeds, delivers the shared frame to open `"b"`, skips closed `"c"`
without error; publishing to `"t"` succeeds as well; a broadcast to the
unmatched mask `"z"` is a no-op. -/
theorem C6_broadcast_publish_never_fail_witness :
    (dispatchOp witnessDb [97] [0, 0, 0, 1] .Broadcast .Processed
        ([63] ++ 0 :: [104])).2 = Except.ok ()
    ∧ lookupClient (dispatchOp witnessDb [97] [0, 0, 0, 1] .Broadcast .Processed
        ([63] ++ 0 :: [104])).1.clients [98]
      = some (some ([] ++
          [⟨.Broadcast, some [97], none, none, [63] ++ 0 :: [104], [63].length + 1⟩]))
    ∧ lookupClient (dispatchOp witnessDb [97] [0, 0, 0, 1] .Broadcast .Processed
        ([63] ++ 0 :: [104])).1.clients [99] = some none
    ∧ (dispatchOp witnessDb [97] [0, 0, 0, 2] .PublishTopic .Processed
        ([116] ++ 0 :: [104])).2 = Except.ok ()
    ∧ sendBroadcastM witnessDb [97] [122] none ([122] ++ 0 :: [104]) ([122].length + 1)
        = witnessDb := by
  have hB := C6_broadcast_publish_never_fail witnessDb [97] [0, 0, 0, 1] [63] [104]
    .Processed [] (by decide) (by decide) (by decide)
  have hP := C6_broadcast_publish_never_fail witnessDb [97] [0, 0, 0, 2] [116] [104]
    .Processed [] (by decide) (by decide) (by decide)
  have hE := C6_broadcast_publish_never_fail witnessDb [97] [0, 0, 0, 3] [122] [104]
    .Processed [] (by decide) (by decide) (by decide)
  refine ⟨hB.1.1, ?_, ?_, hP.2.1, ?_⟩
  · exact hB.1.2.2.2.1 [98] [] (by decide) (by decide) (by decide) (by decide)
  · exact hB.1.2.2.2.2.1 [99] (by decide) (by decide)
  · exact hE.1.2.2.1 (by decide)

/-- Little-endian `u32` round trip for values below `2^32`. -/
theorem leU32_u32le (n : Nat) (h : n < 4294967296) :
    leU32 (n % 4294967296 % 256) (n % 4294967296 / 256 % 256)
      (n % 4294967296 / 65536 % 256) (n % 4294967296 / 16777216 % 256) = n := by
  unfold leU32
  omega

/-- Counterexample for C3: two distinct routed frames — one with
extension header `[1]` and empty payload, one with no header and payload
`[1]` — encode to the same byte sequence, so no decoder recovers the
original `(kind, sender, topic, header, payload)` tuple: the extension
header and the payload are not delimited on the wire. -/
theorem C3_header_payload_merged_counterexample :
    encodeRouted ⟨.Message, some [65], none, some [1], [], 0⟩
      = encodeRouted ⟨.Message, some [65], none, none, [1], 0⟩
    ∧ (⟨.Message, some [65], none, some [1], [], 0⟩ : FrameData)
        ≠ ⟨.Message, some [65], none, none, [1], 0⟩
    ∧ ((⟨.Message, some [65], none, some [1], [], 0⟩ : FrameData).header,
       FrameData.payload ⟨.Message, some [65], none, some [1], [], 0⟩)
      ≠ ((⟨.Message, some [65], none, none, [1], 0⟩ : FrameData).header,
         FrameData.payload ⟨.Message, some [65], none, none, [1], 0⟩) := by decide

/-- C3 amended: decoding the byte sequence emitted by the write loop for
a routed frame (NUL-free sender; topic present, and NUL-free, exactly
for `Publish`; `payload_pos` within the buffer; total size below `2^32`)
recovers the kind, the sender, the topic, and the CONCATENATION of the
extension header and the payload (the two are not separately
recoverable, per the counterexample); and the `u32` length field equals
the number of bytes following the reserved byte. -/
theorem C3_routed_roundtrip (kd : FrameKind) (s : List Nat)
    (tOpt hOpt : Option (List Nat)) (buf : List Nat) (pos : Nat)
    (hs : hasNul s = false)
    (htp : tOpt.isSome = true ↔ kd = FrameKind.Publish)
    (htn : ∀ t, tOpt = some t → hasNul t = false)
    (hkd : kd ≠ FrameKind.Prepared)
    (hpos : pos ≤ buf.length)
    (hbound : s.length + (tOpt.getD []).length + (hOpt.getD []).length
        + buf.length + 2 < 4294967296) :
    decodeRouted (encodeRouted ⟨kd, some s, tOpt, hOpt, buf, pos⟩)
      = some (kd, s, tOpt, hOpt.getD [] ++ buf.drop pos)
    ∧ lengthField (encodeRouted ⟨kd, some s, tOpt, hOpt, buf, pos⟩) + 6
        = (encodeRouted ⟨kd, some s, tOpt, hOpt, buf, pos⟩).length := by
  cases kd with
  | Prepared => exact absurd rfl hkd
  | Message =>
      have htnone : tOpt = none := by
        cases tOpt with
        | none => rfl
        | some t => simp at htp
      subst htnone
      simp only [Option.getD_none, List.length_nil] at hbound ⊢
      cases hOpt with
      | none =>
          constructor
          · simp only [encodeRouted, u32le, FrameKind.toByte, FrameData.payload,
                       Option.getD_some, Option.getD_none, List.cons_append,
                       List.nil_append, List.append_assoc, List.singleton_append,
                       decodeRouted]
            simp only [hasNul_append_nul, takeToNul_append_nul _ _ hs, drop_after_nul]
            simp
          · simp only [encodeRouted, u32le, FrameKind.toByte, FrameData.payload,
                       Option.getD_some, Option.getD_none, List.cons_append,
                       List.nil_append, List.append_assoc, List.singleton_append,
                       lengthField, leU32, List.getD_cons_succ, List.getD_cons_zero,
                       List.length_append, List.length_cons, List.length_drop,
                       List.length_nil]
            omega
      | some h =>
          simp only [Option.getD_some] at hbound ⊢
          constructor
          · simp only [encodeRouted, u32le, FrameKind.toByte, FrameData.payload,
                       Option.getD_some, Option.getD_none, List.cons_append,
                       List.nil_append, List.append_assoc, List.singleton_append,
                       decodeRouted]
            simp only [hasNul_append_nul, takeToNul_append_nul _ _ hs, drop_after_nul]
            simp
          · simp only [encodeRouted, u32le, FrameKind.toByte, FrameData.payload,
                       Option.getD_some, Option.getD_none, List.cons_append,
                       List.nil_append, List.append_assoc, List.singleton_append,
                       lengthField, leU32, List.getD_cons_succ, List.getD_cons_zero,
                       List.length_append, List.length_cons, List.length_drop,
                       List.length_nil]
            omega
  | Broadcast =>
      have htnone : tOpt = none := by
        cases tOpt with
        | none => rfl
        | some t => simp at htp
      subst htnone
      simp only [Option.getD_none, List.length_nil] at hbound ⊢
      cases hOpt with
      | none =>
          constructor
          · simp only [encodeRouted, u32le, FrameKind.toByte, FrameData.payload,
                       Option.getD_some, Option.getD_none, List.cons_append,
                       List.nil_append, List.append_assoc, List.singleton_append,
                       decodeRouted]
            simp only [hasNul_append_nul, takeToNul_append_nul _ _ hs, drop_after_nul]
            simp
          · simp only [encodeRouted, u32le, FrameKind.toByte, FrameData.payload,
                       Option.getD_some, Option.getD_none, List.cons_append,
                       List.nil_append, List.append_assoc, List.singleton_append,
                       lengthField, leU32, List.getD_cons_succ, List.getD_cons_zero,
                       List.length_append, List.length_cons, List.length_drop,
                       List.length_nil]
            omega
      | some h =>
          simp only [Option.getD_some] at hbound ⊢
          constructor
          · simp only [encodeRouted, u32le, FrameKind.toByte, FrameData.payload,
                       Option.getD_some, Option.getD_none, List.cons_append,
                       List.nil_append, List.append_assoc, List.singleton_append,
                       decodeRouted]
            simp only [hasNul_append_nul, takeToNul_append_nul _ _ hs, drop_after_nul]
            simp
          · simp only [encodeRouted, u32le, FrameKind.toByte, FrameData.payload,
                       Option.getD_some, Option.getD_none, List.cons_append,
                       List.nil_append, List.append_assoc, List.singleton_append,
                       lengthField, leU32, List.getD_cons_succ, List.getD_cons_zero,
                       List.length_append, List.length_cons, List.length_drop,
                       List.length_nil]
            omega
  | Publish =>
      obtain ⟨t, htsome⟩ : ∃ t, tOpt = some t := by
        cases tOpt with
        | none => simp at htp
        | some t => exact ⟨t, rfl⟩
      subst htsome
      have htc : hasNul t = false := htn t rfl
      simp only [Option.getD_some] at hbound ⊢
      cases hOpt with
      | none =>
          constructor
          · simp only [encodeRouted, u32le, FrameKind.toByte, FrameData.payload,
                       Option.getD_some, Option.getD_none, List.cons_append,
                       List.nil_append, List.append_assoc, List.singleton_append,
                       decodeRouted]
            simp only [hasNul_append_nul, takeToNul_append_nul _ _ hs, drop_after_nul,
                       takeToNul_append_nul _ _ htc]
            simp
          · simp only [encodeRouted, u32le, FrameKind.toByte, FrameData.payload,
                       Option.getD_some, Option.getD_none, List.cons_append,
                       List.nil_append, List.append_assoc, List.singleton_append,
                       lengthField, leU32, List.getD_cons_succ, List.getD_cons_zero,
                       List.length_append, List.length_cons, List.length_drop,
                       List.length_nil]
            omega
      | some h =>
          simp only [Option.getD_some] at hbound ⊢
          constructor
          · simp only [encodeRouted, u32le, FrameKind.toByte, FrameData.payload,
                       Option.getD_some, Option.getD_none, List.cons_append,
                       List.nil_append, List.append_assoc, List.singleton_append,
                       decodeRouted]
            simp only [hasNul_append_nul, takeToNul_append_nul _ _ hs, drop_after_nul,
                       takeToNul_append_nul _ _ htc]
            simp
          · simp only [encodeRouted, u32le, FrameKind.toByte, FrameData.payload,
                       Option.getD_some, Option.getD_none, List.cons_append,
                       List.nil_append, List.append_assoc, List.singleton_append,
                       lengthField, leU32, List.getD_cons_succ, List.getD_cons_zero,
                       List.length_append, List.length_cons, List.length_drop,
                       List.length_nil]
            omega

/-- Witness for C3 (amended): a concrete `Publish` frame with sender
`"A"`, topic `"t"`, extension header `[9]` and payload `"hi"` decodes
back to its tuple with header and payload concatenated, and its length
field counts the bytes after the reserved byte. -/
theorem C3_routed_roundtrip_witness :
    decodeRouted (encodeRouted ⟨.Publish, some [65], some [116], some [9], [104, 105], 0⟩)
      = some (FrameKind.Publish, [65], some [116],
          (some [9]).getD [] ++ ([104, 105] : List Nat).drop 0)
    ∧ lengthField
        (encodeRouted ⟨.Publish, some [65], some [116], some [9], [104, 105], 0⟩) + 6
      = (encodeRouted ⟨.Publish, some [65], some [116], some [9], [104, 105], 0⟩).length :=
  C3_routed_roundtrip .Publish [65] (some [116]) (some [9]) [104, 105] 0
    (by decide) (by decide) (fun t ht => by cases ht; decide) (by decide) (by decide)
    (by decide)
